import Mathlib

/-!
# Private-Secretary: task store and TickTick sync (`index.js`)

A shallow embedding of the task-store functions of `index.js` and of the
one-way sync to TickTick, followed by theorems about them.

Conventions of the embedding.

* `settings.tasks` is a JavaScript array of object references.  It is a
  `List Task` here, and a reference to a task object is its position in the
  list: `find` yields a position, and a write through the reference is a
  write at that position.
* JavaScript strings are `String`; `===` is equality, and the relational
  operators compare UTF-16 code units (`jsLt`).
* `null` (for `endTime`) and an absent property (for `syncedToTickTick`) are
  `none`.
* What the runtime supplies (`generateId()`, `new Date()`, the local time
  zone, `new Date(s).toISOString()`, the outcome of every `fetch`) is an
  argument of the function that uses it.
* `saveSettings()` hands the collection to the host and has no effect on it,
  so it does not appear.
* A run of `syncDayTasksToTickTick` is taken whole: no other handler runs
  between two of its awaited sends.
-/

namespace PrivateSecretary

/-! ## Data model -/

/-- A task record, as built by `addTask` (lines 70-79) and extended by
`editTask` / `syncDayTasksToTickTick` with `syncedToTickTick`. -/
structure Task where
  id : String
  title : String
  date : String
  time : String
  /-- The value `null` is `none`. -/
  endTime : Option String
  priority : String
  completed : Bool
  createdAt : String
  /-- An absent property is `none`; `addTask` does not set it. -/
  syncedToTickTick : Option Bool
  deriving DecidableEq, Repr

/-- The `updates` argument of `editTask`: for each property of a task, either
not supplied (`none`) or supplied with a value. -/
structure TaskUpdates where
  id : Option String
  title : Option String
  date : Option String
  time : Option String
  endTime : Option (Option String)
  priority : Option String
  completed : Option Bool
  createdAt : Option String
  syncedToTickTick : Option Bool
  deriving DecidableEq, Repr

/-! ## JavaScript primitives -/

/-- Truthiness of a string value: only `""` is falsy. -/
def strTruthy (s : String) : Bool := s != ""

/-- Truthiness of `task.endTime`: `null` and `""` are falsy. -/
def endTimeTruthy : Option String → Bool
  | none => false
  | some s => strTruthy s

/-- Truthiness of `task.syncedToTickTick`: absent and `false` are falsy. -/
def syncedTruthy : Option Bool → Bool
  | none => false
  | some b => b

/-- The UTF-16 code units of one code point. -/
def utf16 (c : Char) : List Nat :=
  if c.toNat < 0x10000 then [c.toNat]
  else [0xD800 + (c.toNat - 0x10000) / 0x400, 0xDC00 + (c.toNat - 0x10000) % 0x400]

/-- The UTF-16 code units of a string, which is what JavaScript compares. -/
def codeUnits (s : String) : List Nat :=
  (s.toList.map utf16).flatten

/-- The string case of the abstract relational comparison `x < y`: the first
differing code unit decides, and a string that the other one extends is
smaller. -/
def unitsLt : List Nat → List Nat → Bool
  | [], [] => false
  | [], _ :: _ => true
  | _ :: _, [] => false
  | a :: as, b :: bs => if a < b then true else if b < a then false else unitsLt as bs

/-- JavaScript `a < b` on strings. -/
def jsLt (a b : String) : Bool := unitsLt (codeUnits a) (codeUnits b)

/-- JavaScript `a <= b` on strings, which is `!(b < a)`. -/
def jsLe (a b : String) : Bool := !(jsLt b a)

/-- JavaScript `a >= b` on strings, which is `!(a < b)`. -/
def jsGe (a b : String) : Bool := !(jsLt a b)

/-- The code points that `String.prototype.trim` strips: WhiteSpace and
LineTerminator of ECMAScript. -/
def isJsWhiteSpace (c : Char) : Bool :=
  let n := c.toNat
  n == 0x09 || n == 0x0A || n == 0x0B || n == 0x0C || n == 0x0D || n == 0x20 ||
  n == 0xA0 || n == 0x1680 || (0x2000 ≤ n && n ≤ 0x200A) || n == 0x2028 ||
  n == 0x2029 || n == 0x202F || n == 0x205F || n == 0x3000 || n == 0xFEFF

/-- The method `String.prototype.trim`. -/
def jsTrim (s : String) : String :=
  String.mk ((s.toList.dropWhile isJsWhiteSpace).reverse.dropWhile isJsWhiteSpace).reverse

/-! ## References into the collection -/

/-- The reference returned by `tasks.find(p)`: the position of the first task
satisfying `p`, or `none` for `undefined`. -/
def findRef (p : Task → Bool) : List Task → Option Nat
  | [] => none
  | t :: ts => if p t then some 0 else (findRef p ts).map (· + 1)

/-- A write through a reference: the object at position `i` becomes `f` of
itself, every other object is left alone. -/
def updateRef (f : Task → Task) : Nat → List Task → List Task
  | _, [] => []
  | 0, t :: ts => f t :: ts
  | i + 1, t :: ts => t :: updateRef f i ts

/-! ## Task store (lines 67-140) -/

/-- The function `addTask` (lines 68-83).  `newId` is the value of
`generateId()`, `now` that of `new Date().toISOString()`; an absent `endTime`
argument is `none`.  Returns the new record and the collection after the
`push`. -/
def addTask (newId now : String) (title date time : String) (endTime : Option String)
    (priority : String) (tasks : List Task) : Task × List Task :=
  let task : Task :=
    { id := newId
      title := title
      date := date
      time := time
      endTime := if endTimeTruthy endTime then endTime else none
      priority := priority
      completed := false
      createdAt := now
      syncedToTickTick := none }
  (task, tasks ++ [task])

/-- The function `deleteTask` (lines 86-90). -/
def deleteTask (taskId : String) (tasks : List Task) : List Task :=
  tasks.filter (fun t => t.id != taskId)

/-- The function `toggleTaskComplete` (lines 93-100). -/
def toggleTaskComplete (taskId : String) (tasks : List Task) : List Task :=
  match findRef (fun t => t.id == taskId) tasks with
  | some i => updateRef (fun t => { t with completed := !t.completed }) i tasks
  | none => tasks

/-- The call `Object.assign(task, updates)`: every supplied property
overwrites that of the task. -/
def assign (task : Task) (updates : TaskUpdates) : Task :=
  { id := updates.id.getD task.id
    title := updates.title.getD task.title
    date := updates.date.getD task.date
    time := updates.time.getD task.time
    endTime := updates.endTime.getD task.endTime
    priority := updates.priority.getD task.priority
    completed := updates.completed.getD task.completed
    createdAt := updates.createdAt.getD task.createdAt
    syncedToTickTick :=
      match updates.syncedToTickTick with
      | some b => some b
      | none => task.syncedToTickTick }

/-- The function `editTask` (lines 103-112): the returned boolean and the
collection afterwards. -/
def editTask (taskId : String) (updates : TaskUpdates) (tasks : List Task) :
    Bool × List Task :=
  match findRef (fun t => t.id == taskId) tasks with
  | none => (false, tasks)
  | some i =>
    (true, updateRef (fun t => { assign t updates with syncedToTickTick := some false }) i tasks)

/-- The function `getTasksByDate` (lines 137-140). -/
def getTasksByDate (dateStr : String) (tasks : List Task) : List Task :=
  tasks.filter (fun t => t.date == dateStr)

/-! ## Calendar dates of the runtime `Date` -/

/-- Milliseconds per day. -/
def msPerDay : Int := 86400000

/-- Year, month (1-12) and day of month of the day number `z`, counted from
1970-01-01, in the proleptic Gregorian calendar that `Date` uses. -/
def civilFromDays (z : Int) : Int × Int × Int :=
  let z := z + 719468
  let era := z / 146097
  let doe := z - era * 146097
  let yoe := (doe - doe / 1460 + doe / 36524 - doe / 146096) / 365
  let doy := doe - (365 * yoe + yoe / 4 - yoe / 100)
  let mp := (5 * doy + 2) / 153
  let d := doy - (153 * mp + 2) / 5 + 1
  let m := if mp < 10 then mp + 3 else mp - 9
  (yoe + era * 400 + (if m ≤ 2 then 1 else 0), m, d)

/-- The day number, counted from 1970-01-01, of a calendar date. -/
def daysFromCivil (y m d : Int) : Int :=
  let y := if m ≤ 2 then y - 1 else y
  let era := y / 400
  let yoe := y - era * 400
  let doy := (153 * (if m > 2 then m - 3 else m + 9) + 2) / 5 + d - 1
  let doe := yoe * 365 + yoe / 4 - yoe / 100 + doy
  era * 146097 + doe - 719468

/-- The decimal digit of `n` at the units place. -/
def digitChar (n : Nat) : Char := Char.ofNat (48 + n % 10)

/-- Two decimal digits, zero padded. -/
def pad2 (n : Nat) : List Char := [digitChar (n / 10), digitChar n]

/-- Three decimal digits, zero padded. -/
def pad3 (n : Nat) : List Char := [digitChar (n / 100), digitChar (n / 10), digitChar n]

/-- Four decimal digits, zero padded. -/
def pad4 (n : Nat) : List Char := digitChar (n / 1000) :: pad3 n

/-- The year of `toISOString`: four digits for the years 0 to 9999, a sign and
six digits otherwise. -/
def isoYear (y : Int) : List Char :=
  if 0 ≤ y ∧ y ≤ 9999 then pad4 y.toNat
  else (if y < 0 then '-' else '+') :: (pad3 (y.natAbs / 1000) ++ pad3 y.natAbs)

/-- The part of `toISOString()` before the `T`, for a UTC day number. -/
def isoDate (day : Int) : String :=
  let (y, m, d) := civilFromDays day
  String.mk (isoYear y ++ '-' :: pad2 m.toNat ++ '-' :: pad2 d.toNat)

/-- The function `getDateString` (lines 244-246), on the time value of its
`Date` argument (milliseconds since the epoch, UTC):
`date.toISOString().split("T")[0]`, the calendar date in UTC. -/
def getDateString (timeValue : Int) : String :=
  isoDate (timeValue / msPerDay)

/-- The function `cleanupExpiredTasks` (lines 115-134): the returned count and
the collection afterwards.  `now` is the time value of `new Date()`.  The
local time zone enters through the offset of local time from UTC, in minutes
(positive east of Greenwich, `480` for UTC+8), at three moments: `tzNow` now,
`tzToday` at the local midnight of today, `tzCutoff` at the local midnight
seven days earlier; they differ when daylight saving changes in between. -/
def cleanupExpiredTasks (now tzNow tzToday tzCutoff : Int) (tasks : List Task) :
    Nat × List Task :=
  -- `today.setHours(0, 0, 0, 0)`: the local midnight of the local day of `now`,
  -- first as a local time value, then as the time value of `today`
  let todayLocal := (now + tzNow * 60000) / msPerDay * msPerDay
  let today := todayLocal - tzToday * 60000
  -- `cutoffDate.setDate(cutoffDate.getDate() - 7)`: in local time, the day of
  -- the month goes back by seven, which the calendar carries into the month
  -- before, and the time within the day stays
  let cutoffLocal := today + tzToday * 60000 - 7 * msPerDay
  let cutoffDate := cutoffLocal - tzCutoff * 60000
  let cutoffStr := getDateString cutoffDate
  let kept := tasks.filter (fun t => jsGe t.date cutoffStr)
  (tasks.length - kept.length, kept)

/-- The value of a decimal digit. -/
def digitVal (c : Char) : Option Nat :=
  if c.isDigit then some (c.toNat - 48) else none

/-- The number written by a list of decimal digits. -/
def digitsVal : List Char → Option Nat
  | [] => some 0
  | cs => cs.foldlM (fun acc c => (digitVal c).map (fun v => acc * 10 + v)) 0

/-- The local time value written by a string of the ECMAScript date-time
form `YYYY-MM-DDTHH:mm:ss`, as V8 reads it: the month is 1 to 12, the day 1 to
31, a day past the end of the month running into the next month, and the
hour 24 stands with `00:00` for the end of the day; `none` for every other
string. -/
def parseLocalDateTime (s : String) : Option Int :=
  match s.toList with
  | [y1, y2, y3, y4, c1, m1, m2, c2, d1, d2, c3, h1, h2, c4, n1, n2, c5, s1, s2] =>
    if c1 = '-' ∧ c2 = '-' ∧ c3 = 'T' ∧ c4 = ':' ∧ c5 = ':' then do
      let y ← digitsVal [y1, y2, y3, y4]
      let m ← digitsVal [m1, m2]
      let d ← digitsVal [d1, d2]
      let h ← digitsVal [h1, h2]
      let n ← digitsVal [n1, n2]
      let sec ← digitsVal [s1, s2]
      if 1 ≤ m ∧ m ≤ 12 ∧ 1 ≤ d ∧ d ≤ 31 ∧ n ≤ 59 ∧ sec ≤ 59 ∧
          (h ≤ 23 ∨ (h = 24 ∧ n = 0 ∧ sec = 0)) then
        some (daysFromCivil y m d * msPerDay + ((h * 60 + n) * 60 + sec) * 1000)
      else none
    else none
  | _ => none

/-- A reference model of `new Date(s).toISOString()` for a runtime whose
local time is `tzMinutes` minutes ahead of UTC.  A string that
`parseLocalDateTime` reads is taken as local time and written back in UTC;
for any other string the `Date` is invalid and `toISOString` throws the
`RangeError` whose message is returned. -/
def dateToISOString (tzMinutes : Int) (s : String) : Except String String :=
  match parseLocalDateTime s with
  | none => .error "Invalid time value"
  | some localValue =>
    let t := localValue - tzMinutes * 60000
    let ms := (t % msPerDay).toNat
    .ok (isoDate (t / msPerDay) ++ String.mk ('T' :: pad2 (ms / 3600000) ++ ':' ::
      pad2 (ms / 60000 % 60) ++ ':' :: pad2 (ms / 1000 % 60) ++ '.' :: pad3 (ms % 1000) ++ ['Z']))

/-! ## Conversion to the TickTick task shape (lines 6-27, 153-170) -/

/-- The constant `PRIORITY.URGENT_IMPORTANT`. -/
def PRIORITY.URGENT_IMPORTANT : String := "urgent-important"

/-- The constant `PRIORITY.NOT_URGENT_IMPORTANT`. -/
def PRIORITY.NOT_URGENT_IMPORTANT : String := "not-urgent-important"

/-- The constant `PRIORITY.URGENT_NOT_IMPORTANT`. -/
def PRIORITY.URGENT_NOT_IMPORTANT : String := "urgent-not-important"

/-- The constant `PRIORITY.NOT_URGENT_NOT_IMPORTANT`. -/
def PRIORITY.NOT_URGENT_NOT_IMPORTANT : String := "not-urgent-not-important"

/-- The names of the members that an object literal inherits from
`Object.prototype`.  Each member is a function, or for `__proto__` the
prototype object itself, so each is truthy. -/
def objectPrototypeKeys : List String :=
  ["constructor", "hasOwnProperty", "isPrototypeOf", "propertyIsEnumerable",
   "toLocaleString", "toString", "valueOf", "__proto__", "__defineGetter__",
   "__defineSetter__", "__lookupGetter__", "__lookupSetter__"]

/-- What `table[key]` yields on an object literal: the value of an own key,
the member inherited under that name, or `undefined`. -/
inductive Lookup (α : Type) where
  | own (value : α)
  | inherited (key : String)
  | undefined
  deriving DecidableEq, Repr

/-- The expression `TICKTICK_PRIORITY_MAP[key]` on the table of lines 22-27. -/
def TICKTICK_PRIORITY_MAP (key : String) : Lookup Nat :=
  if key = PRIORITY.URGENT_IMPORTANT then .own 5
  else if key = PRIORITY.NOT_URGENT_IMPORTANT then .own 3
  else if key = PRIORITY.URGENT_NOT_IMPORTANT then .own 3
  else if key = PRIORITY.NOT_URGENT_NOT_IMPORTANT then .own 1
  else if key ∈ objectPrototypeKeys then .inherited key
  else .undefined

/-- The value of the `priority` property of the object that
`convertToTickTickTask` builds: a number, or the member of `Object.prototype`
of the given name. -/
inductive PriorityValue where
  | number (n : Nat)
  | inherited (key : String)
  deriving DecidableEq, Repr

/-- The object built by `convertToTickTickTask`; an absent `dueDate` is
`none`. -/
structure TickTickTask where
  title : String
  startDate : String
  priority : PriorityValue
  isAllDay : Bool
  dueDate : Option String
  deriving DecidableEq, Repr

/-- The function `convertToTickTickTask` (lines 154-170).  `toISOString s` is
the runtime evaluating `new Date(s).toISOString()`, which throws a
`RangeError` when `s` does not denote a date; the exception leaves the
function. -/
def convertToTickTickTask (toISOString : String → Except String String) (task : Task) :
    Except String TickTickTask := do
  let startDate ← toISOString (task.date ++ "T" ++ task.time ++ ":00")
  let tickTask : TickTickTask :=
    { title := task.title
      startDate := startDate
      priority :=
        match TICKTICK_PRIORITY_MAP task.priority with
        | .own n => if n != 0 then .number n else .number 0
        | .inherited key => .inherited key
        | .undefined => .number 0
      isAllDay := false
      dueDate := none }
  match task.endTime with
  | some endTime =>
    if strTruthy endTime then
      let dueDate ← toISOString (task.date ++ "T" ++ endTime ++ ":00")
      pure { tickTask with dueDate := some dueDate }
    else pure tickTask
  | none => pure tickTask

/-! ## Sync of a day (lines 172-231) -/

/-- How one call of `sendTaskToTickTick` ends: it resolves, or it throws an
error with a message (no token, a conversion error, a network error, a
response that is not ok). -/
inductive SendOutcome where
  | resolved
  | threw (message : String)
  deriving DecidableEq, Repr

/-- The object returned by `syncDayTasksToTickTick`. -/
structure SyncResult where
  success : Nat
  failed : Nat
  message : String
  deriving DecidableEq, Repr

/-- The variables of the loop of `syncDayTasksToTickTick`, with the collection
it writes to and the list `sent` of the tasks handed to `sendTaskToTickTick`
so far. -/
structure SyncState where
  tasks : List Task
  success : Nat
  failed : Nat
  errors : List String
  sent : List Task
  deriving DecidableEq, Repr

/-- The references selected by `tasks.filter(p)`: the positions of the tasks
satisfying `p`, in order. -/
def filterRefs (p : Task → Bool) (tasks : List Task) : List Nat :=
  (List.range tasks.length).filter (fun i =>
    match tasks[i]? with
    | some t => p t
    | none => false)

/-- One iteration of the loop (lines 212-222) for the task at reference `ref`.
`outcome k` is how the `k`-th call of `sendTaskToTickTick` ends, counted from
zero. -/
def syncIteration (outcome : Nat → SendOutcome) (st : SyncState) (ref : Nat) : SyncState :=
  match st.tasks[ref]? with
  | none => st
  | some task =>
    match outcome st.sent.length with
    | .resolved =>
      { st with
        tasks := updateRef (fun t => { t with syncedToTickTick := some true }) ref st.tasks
        success := st.success + 1
        sent := st.sent ++ [task] }
    | .threw message =>
      { st with
        failed := st.failed + 1
        errors := st.errors ++ [task.title ++ ": " ++ message]
        sent := st.sent ++ [task] }

/-- A run of `syncDayTasksToTickTick`: the returned object, the collection
afterwards, the `errors` array and the tasks sent, in call order. -/
structure SyncRun where
  result : SyncResult
  tasks : List Task
  errors : List String
  sent : List Task
  deriving DecidableEq, Repr

/-- The function `syncDayTasksToTickTick` (lines 199-231). -/
def syncDayTasksToTickTick (outcome : Nat → SendOutcome) (dateStr : String)
    (tasks : List Task) : SyncRun :=
  let refs := (filterRefs (fun t => t.date == dateStr) tasks).filter (fun i =>
    match tasks[i]? with
    | some t => !t.completed && !syncedTruthy t.syncedToTickTick
    | none => false)
  if refs.length = 0 then
    { result := { success := 0, failed := 0, message := "没有需要同步的任务" }
      tasks := tasks, errors := [], sent := [] }
  else
    let st := refs.foldl (syncIteration outcome)
      { tasks := tasks, success := 0, failed := 0, errors := [], sent := [] }
    { result :=
        { success := st.success
          failed := st.failed
          message := if st.errors.length > 0 then "\n".intercalate st.errors else "全部同步成功" }
      tasks := st.tasks, errors := st.errors, sent := st.sent }

/-! ## Submit handlers (lines 541-573, 723-749) -/

/-- What a submit handler does: the message of the `alert` it stops at, if
any, and the collection when it returns. -/
structure Submit where
  alert : Option String
  tasks : List Task
  deriving DecidableEq, Repr

/-- The click handler of `#ps-add-task-btn` (lines 723-749), on the values of
the five form fields. -/
def addTaskClick (newId now : String) (titleField date time endTime priority : String)
    (tasks : List Task) : Submit :=
  let title := jsTrim titleField
  if !strTruthy title then { alert := some "请输入任务内容", tasks := tasks }
  else if strTruthy endTime && jsLe endTime time then
    { alert := some "结束时间必须晚于开始时间", tasks := tasks }
  else
    { alert := none, tasks := (addTask newId now title date time (some endTime) priority tasks).2 }

/-- The click handler of the save button of the edit form (lines 541-573), on
the values of the five form fields. -/
def editSaveClick (taskId : String) (titleField date time endTime priority : String)
    (tasks : List Task) : Submit :=
  let title := jsTrim titleField
  if !strTruthy title then { alert := some "任务标题不能为空", tasks := tasks }
  else if strTruthy endTime && jsLe endTime time then
    { alert := some "结束时间必须晚于开始时间", tasks := tasks }
  else
    let updates : TaskUpdates :=
      { id := none
        title := some title
        date := some date
        time := some time
        endTime := some (if strTruthy endTime then some endTime else none)
        priority := some priority
        completed := none
        createdAt := none
        syncedToTickTick := none }
    { alert := none, tasks := (editTask taskId updates tasks).2 }

/-! ## Sequences of calls -/

/-- The arguments of one call of `addTask`, with the values the runtime
supplies to it. -/
structure AddCall where
  newId : String
  now : String
  title : String
  date : String
  time : String
  endTime : Option String
  priority : String
  deriving DecidableEq, Repr

/-- The collection after a sequence of `addTask` calls. -/
def addTasks (calls : List AddCall) (tasks : List Task) : List Task :=
  calls.foldl
    (fun ts c => (addTask c.newId c.now c.title c.date c.time c.endTime c.priority ts).2) tasks

/-! ## The task list (lines 14-19, 300-306, 354-397) -/

/-- The expression `PRIORITY_LABELS[key]` on the table of lines 14-19. -/
def PRIORITY_LABELS (key : String) : Lookup String :=
  if key = PRIORITY.URGENT_IMPORTANT then .own "重要且紧急"
  else if key = PRIORITY.NOT_URGENT_IMPORTANT then .own "重要不紧急"
  else if key = PRIORITY.URGENT_NOT_IMPORTANT then .own "不重要但紧急"
  else if key = PRIORITY.NOT_URGENT_NOT_IMPORTANT then .own "不重要不紧急"
  else if key ∈ objectPrototypeKeys then .inherited key
  else .undefined

/-- The text a template literal prints for `PRIORITY_LABELS[key]`.
`memberText name` is the text the runtime prints for the member of
`Object.prototype` of that name. -/
def labelText (memberText : String → String) (key : String) : String :=
  match PRIORITY_LABELS key with
  | .own label => label
  | .inherited name => memberText name
  | .undefined => "undefined"

/-- The start time that a `time` string of the form `HH:MM` denotes, in
minutes after midnight; `<input type="time">` yields such strings, or the
empty string, which like every other string denotes none. -/
def startMinutes (time : String) : Option Nat :=
  match time.toList with
  | [h1, h2, c, m1, m2] =>
    if c = ':' ∧ h1.isDigit ∧ h2.isDigit ∧ m1.isDigit ∧ m2.isDigit ∧
        (h1.toNat - 48) * 10 + (h2.toNat - 48) ≤ 23 ∧
        (m1.toNat - 48) * 10 + (m2.toNat - 48) ≤ 59 then
      some (((h1.toNat - 48) * 10 + (h2.toNat - 48)) * 60
        + ((m1.toNat - 48) * 10 + (m2.toNat - 48)))
    else none
  | _ => none

/-- The function `formatTaskTime` (lines 301-306). -/
def formatTaskTime (task : Task) : String :=
  match task.endTime with
  | some endTime => if strTruthy endTime then task.time ++ " - " ++ endTime else task.time
  | none => task.time

/-- One step of a stable sort: `a`, which stood before every element of the
sorted list, goes in front of the first element `b` with `comparefn(a, b) <= 0`,
so behind the elements it has to follow and in front of its ties. -/
def orderedInsert (comparefn : Task → Task → Int) (a : Task) : List Task → List Task
  | [] => [a]
  | b :: l => if comparefn a b ≤ 0 then a :: b :: l else b :: orderedInsert comparefn a l

/-- The method `Array.prototype.sort(comparefn)`.  The sort is stable
(ECMAScript 2019), and for a consistent comparator the result of a stable
sort is determined; it is computed here by insertion. -/
def arraySort (comparefn : Task → Task → Int) : List Task → List Task
  | [] => []
  | a :: l => orderedInsert comparefn a (arraySort comparefn l)

/-- What ECMAScript requires of `String.prototype.localeCompare`, whose values
are left to the runtime and its locale: it is a consistent comparator that
defines a total ordering of the strings. -/
def ConsistentComparator (cmp : String → String → Int) : Prop :=
  (∀ a, cmp a a = 0) ∧ (∀ a b, cmp a b < 0 ↔ 0 < cmp b a) ∧
  (∀ a b c, cmp a b ≤ 0 → cmp b c ≤ 0 → cmp a c ≤ 0)

/-- A comparator of the runtime kind: the order of the UTF-16 code units,
which is how a collation orders the strings `HH:MM` of a time field. -/
def codeUnitCompare (a b : String) : Int :=
  if jsLt a b then -1 else if jsLt b a then 1 else 0

/-- The text that the callback of `tasks.forEach` appends for one task
(lines 365-393). -/
def renderTaskItem (memberText : String → String) (task : Task) : String :=
  let timeDisplay := formatTaskTime task
  let isDuration := if endTimeTruthy task.endTime then " duration" else ""
  let syncedBadge :=
    if syncedTruthy task.syncedToTickTick then
      "<span class=\"ps-synced-badge\" title=\"已同步到 TickTick\"><i class=\"fa-solid fa-cloud-check\"></i></span>"
    else ""
  "\n      <div class=\"ps-task-item " ++
    task.priority ++
    (if task.completed then " completed" else "") ++
    isDuration ++
    (if syncedTruthy task.syncedToTickTick then " synced" else "") ++
    "\" data-id=\"" ++
    task.id ++
    "\">\n        <div class=\"ps-task-checkbox\">\n          <input type=\"checkbox\" " ++
    (if task.completed then "checked" else "") ++
    " />\n        </div>\n        <div class=\"ps-task-content\">\n          <div class=\"ps-task-title\">" ++
    task.title ++
    " " ++
    syncedBadge ++
    "</div>\n          <div class=\"ps-task-meta\">\n            <span class=\"ps-task-time\"><i class=\"fa-regular fa-clock\"></i> " ++
    timeDisplay ++
    "</span>\n            <span class=\"ps-task-priority-label\">" ++
    labelText memberText task.priority ++
    "</span>\n          </div>\n        </div>\n        <div class=\"ps-task-actions\">\n          <button class=\"ps-btn-edit\" title=\"编辑\"><i class=\"fa-solid fa-pen\"></i></button>\n          <button class=\"ps-btn-delete\" title=\"删除\"><i class=\"fa-solid fa-trash\"></i></button>\n        </div>\n      </div>\n    "

/-- The function `renderTaskList` (lines 354-397).  `localeCompare a b` is the
runtime evaluating `a.localeCompare(b)`, and `memberText` is as in
`labelText`. -/
def renderTaskList (localeCompare : String → String → Int) (memberText : String → String)
    (dateStr : String) (tasks : List Task) : String :=
  let tasks := getTasksByDate dateStr tasks
  if tasks.length = 0 then "<div class=\"ps-no-tasks\">暂无任务安排</div>"
  else
    let tasks := arraySort (fun a b => localeCompare a.time b.time) tasks
    let html := tasks.foldl (fun html task => html ++ renderTaskItem memberText task)
      "<div class=\"ps-task-list\">"
    html ++ "</div>"

/-! ## Lemmas on references -/

theorem findRef_eq_none {p : Task → Bool} {tasks : List Task} :
    findRef p tasks = none ↔ ∀ t ∈ tasks, p t = false := by
  induction tasks with
  | nil => simp [findRef]
  | cons t ts ih =>
    by_cases h : p t = true
    · simp [findRef, h]
    · simp [findRef, h, ih]

theorem findRef_some_spec {p : Task → Bool} {tasks : List Task} {i : Nat}
    (h : findRef p tasks = some i) :
    ∃ t, tasks[i]? = some t ∧ p t = true ∧ ∀ j, j < i → ∀ u, tasks[j]? = some u → p u = false := by
  induction tasks generalizing i with
  | nil => simp [findRef] at h
  | cons t ts ih =>
    by_cases hp : p t = true
    · simp only [findRef, hp, if_true, Option.some.injEq] at h
      subst h
      exact ⟨t, by simp, hp, by intro j hj; omega⟩
    · simp only [findRef, hp, Bool.false_eq_true, if_false, Option.map_eq_some'] at h
      obtain ⟨k, hk, rfl⟩ := h
      obtain ⟨u, hu, hpu, hlt⟩ := ih hk
      refine ⟨u, by simpa using hu, hpu, ?_⟩
      intro j hj v hv
      cases j with
      | zero =>
        simp only [List.getElem?_cons_zero, Option.some.injEq] at hv
        subst hv
        simpa using hp
      | succ j =>
        simp only [List.getElem?_cons_succ] at hv
        exact hlt j (by omega) v hv

theorem findRef_isSome_of_mem {p : Task → Bool} {tasks : List Task} {t : Task}
    (hm : t ∈ tasks) (hp : p t = true) : ∃ i, findRef p tasks = some i := by
  cases h : findRef p tasks with
  | some i => exact ⟨i, rfl⟩
  | none =>
    have := findRef_eq_none.mp h t hm
    simp [hp] at this

theorem updateRef_length (f : Task → Task) (i : Nat) (tasks : List Task) :
    (updateRef f i tasks).length = tasks.length := by
  induction tasks generalizing i with
  | nil => simp [updateRef]
  | cons t ts ih =>
    cases i with
    | zero => simp [updateRef]
    | succ i => simp [updateRef, ih]

theorem updateRef_getElem?_self (f : Task → Task) (i : Nat) (tasks : List Task) :
    (updateRef f i tasks)[i]? = (tasks[i]?).map f := by
  induction tasks generalizing i with
  | nil => simp [updateRef]
  | cons t ts ih =>
    cases i with
    | zero => simp [updateRef]
    | succ i => simp [updateRef, ih]

theorem updateRef_getElem?_ne (f : Task → Task) {i j : Nat} (h : j ≠ i) (tasks : List Task) :
    (updateRef f i tasks)[j]? = tasks[j]? := by
  induction tasks generalizing i j with
  | nil => simp [updateRef]
  | cons t ts ih =>
    cases i with
    | zero =>
      cases j with
      | zero => exact absurd rfl h
      | succ j => simp [updateRef]
    | succ i =>
      cases j with
      | zero => simp [updateRef]
      | succ j => simpa [updateRef] using ih (by omega)

theorem updateRef_updateRef (f g : Task → Task) (i : Nat) (tasks : List Task) :
    updateRef g i (updateRef f i tasks) = updateRef (fun t => g (f t)) i tasks := by
  induction tasks generalizing i with
  | nil => simp [updateRef]
  | cons t ts ih =>
    cases i with
    | zero => simp [updateRef]
    | succ i => simp [updateRef, ih]

theorem updateRef_of_fixed {f : Task → Task} (hf : ∀ t, f t = t) (i : Nat) (tasks : List Task) :
    updateRef f i tasks = tasks := by
  induction tasks generalizing i with
  | nil => simp [updateRef]
  | cons t ts ih =>
    cases i with
    | zero => simp [updateRef, hf]
    | succ i => simp [updateRef, ih]

theorem findRef_updateRef {p : Task → Bool} {f : Task → Task} (hf : ∀ t, p (f t) = p t)
    (i : Nat) (tasks : List Task) : findRef p (updateRef f i tasks) = findRef p tasks := by
  induction tasks generalizing i with
  | nil => simp [updateRef]
  | cons t ts ih =>
    cases i with
    | zero => simp [updateRef, findRef, hf]
    | succ i => simp [updateRef, findRef, ih]

/-! ## Sync of a day: the loop -/

theorem filterRefs_filter (p q : Task → Bool) (tasks : List Task) :
    (filterRefs p tasks).filter (fun i =>
      match tasks[i]? with
      | some t => q t
      | none => false) = filterRefs (fun t => p t && q t) tasks := by
  unfold filterRefs
  rw [List.filter_filter]
  congr 1
  funext i
  cases tasks[i]? with
  | none => rfl
  | some t => simp [Bool.and_comm]

theorem filterRefs_cons (p : Task → Bool) (t : Task) (ts : List Task) :
    filterRefs p (t :: ts) =
      (if p t then [0] else []) ++ (filterRefs p ts).map (· + 1) := by
  unfold filterRefs
  rw [List.length_cons, List.range_succ_eq_map, List.filter_cons, List.filter_map]
  have hfun : ((fun i => match (t :: ts)[i]? with | some t => p t | none => false) ∘ Nat.succ)
      = (fun i => match ts[i]? with | some t => p t | none => false) := by
    funext i
    simp
  rw [hfun]
  by_cases hp : p t = true
  · simp [hp]
  · simp [hp]

theorem updateRef_append_length (f : Task → Task) (pre : List Task) (t : Task)
    (suf : List Task) : updateRef f pre.length (pre ++ t :: suf) = pre ++ f t :: suf := by
  induction pre with
  | nil => simp [updateRef]
  | cons a as ih => simp [updateRef, ih]

theorem syncIteration_resolved (outcome : Nat → SendOutcome) (pre : List Task) (a : Task)
    (suf : List Task) (st : SyncState) (hst : st.tasks = pre ++ a :: suf)
    (ho : outcome st.sent.length = .resolved) :
    syncIteration outcome st pre.length =
      { tasks := pre ++ { a with syncedToTickTick := some true } :: suf
        success := st.success + 1
        failed := st.failed
        errors := st.errors
        sent := st.sent ++ [a] } := by
  have hget : (pre ++ a :: suf)[pre.length]? = some a := by
    rw [List.getElem?_append_right (Nat.le_refl _)]
    simp
  simp only [syncIteration, hst, hget, ho, updateRef_append_length]

theorem syncIteration_threw (outcome : Nat → SendOutcome) (pre : List Task) (a : Task)
    (suf : List Task) (st : SyncState) (hst : st.tasks = pre ++ a :: suf) (message : String)
    (ho : outcome st.sent.length = .threw message) :
    syncIteration outcome st pre.length =
      { tasks := pre ++ a :: suf
        success := st.success
        failed := st.failed + 1
        errors := st.errors ++ [a.title ++ ": " ++ message]
        sent := st.sent ++ [a] } := by
  have hget : (pre ++ a :: suf)[pre.length]? = some a := by
    rw [List.getElem?_append_right (Nat.le_refl _)]
    simp
  simp only [syncIteration, hst, hget, ho]

/-- The loop of `syncDayTasksToTickTick`, run from any state of its variables
over the references of the tasks of `suf` that satisfy `p`, where `suf` is
the part of the collection not yet visited. -/
theorem syncLoop_spec (outcome : Nat → SendOutcome) (p : Task → Bool) :
    ∀ (suf pre : List Task) (st : SyncState), st.tasks = pre ++ suf →
      (((filterRefs p suf).map (· + pre.length)).foldl (syncIteration outcome) st).sent
        = st.sent ++ suf.filter p ∧
      (((filterRefs p suf).map (· + pre.length)).foldl (syncIteration outcome) st).success
        = st.success + (List.range' st.sent.length (suf.filter p).length).countP
            (fun k => outcome k = .resolved) ∧
      (((filterRefs p suf).map (· + pre.length)).foldl (syncIteration outcome) st).failed
        = st.failed + (List.range' st.sent.length (suf.filter p).length).countP
            (fun k => ¬ outcome k = .resolved) ∧
      (((filterRefs p suf).map (· + pre.length)).foldl (syncIteration outcome) st).errors
        = st.errors ++ (List.enumFrom st.sent.length (suf.filter p)).filterMap (fun kt =>
            match outcome kt.1 with
            | .threw message => some (kt.2.title ++ ": " ++ message)
            | .resolved => none) ∧
      ∃ suf', (((filterRefs p suf).map (· + pre.length)).foldl (syncIteration outcome) st).tasks
          = pre ++ suf' ∧ suf'.length = suf.length ∧
        ∀ j t, suf[j]? = some t →
          suf'[j]? = some (if p t then
            (match outcome (st.sent.length + (suf.take j).countP p) with
              | .resolved => { t with syncedToTickTick := some true }
              | .threw _ => t)
            else t) := by
  intro suf
  induction suf with
  | nil =>
    intro pre st hst
    refine ⟨by simp [filterRefs], by simp [filterRefs], by simp [filterRefs],
      by simp [filterRefs], [], by simpa [filterRefs] using hst, rfl, by simp⟩
  | cons a as ih =>
    intro pre st hst
    have hshift : ∀ (x : Task) (l : List Nat),
        (l.map (· + 1)).map (· + pre.length) = l.map (· + (pre ++ [x]).length) := by
      intro x l
      simp only [List.map_map, List.length_append, List.length_singleton]
      congr 1
      funext i
      simp only [Function.comp]
      omega
    by_cases hp : p a = true
    · -- the task is selected: one send, then the rest of the collection
      have hfilter : (a :: as).filter p = a :: as.filter p := by simp [hp]
      have hrefs : ∀ x : Task, (filterRefs p (a :: as)).map (· + pre.length)
          = pre.length :: (filterRefs p as).map (· + (pre ++ [x]).length) := by
        intro x
        rw [filterRefs_cons]
        simp only [hp, if_true, List.singleton_append, List.map_cons, Nat.zero_add]
        rw [hshift x]
      cases ho : outcome st.sent.length with
      | resolved =>
        rw [hrefs { a with syncedToTickTick := some true }, List.foldl_cons,
          syncIteration_resolved outcome pre a as st hst ho, hfilter]
        obtain ⟨h1, h2, h3, h4, suf', h5, h6, h7⟩ :=
          ih (pre ++ [{ a with syncedToTickTick := some true }])
            { tasks := pre ++ { a with syncedToTickTick := some true } :: as
              success := st.success + 1
              failed := st.failed
              errors := st.errors
              sent := st.sent ++ [a] } (by simp)
        simp only [List.length_append, List.length_singleton] at h1 h2 h3 h4 h5 h7 ⊢
        refine ⟨by rw [h1]; simp, ?_, ?_, ?_,
          { a with syncedToTickTick := some true } :: suf', by rw [h5]; simp, by simp [h6], ?_⟩
        · rw [h2, List.length_cons, List.range'_succ, List.countP_cons]
          simp only [ho, decide_True, if_true]
          omega
        · rw [h3, List.length_cons, List.range'_succ, List.countP_cons]
          simp [ho]
        · rw [h4, List.enumFrom_cons, List.filterMap_cons]
          simp only [ho]
        · intro j t hj
          cases j with
          | zero =>
            simp only [List.getElem?_cons_zero, Option.some.injEq] at hj
            subst hj
            simp [hp, ho]
          | succ j =>
            simp only [List.getElem?_cons_succ] at hj
            simp only [List.getElem?_cons_succ, List.take_succ_cons, List.countP_cons, hp,
              if_true]
            have := h7 j t hj
            rw [this]
            have harith : st.sent.length + 1 + List.countP p (List.take j as)
                = st.sent.length + (List.countP p (List.take j as) + 1) := by omega
            rw [harith]
      | threw message =>
        rw [hrefs a, List.foldl_cons,
          syncIteration_threw outcome pre a as st hst message ho, hfilter]
        obtain ⟨h1, h2, h3, h4, suf', h5, h6, h7⟩ :=
          ih (pre ++ [a])
            { tasks := pre ++ a :: as
              success := st.success
              failed := st.failed + 1
              errors := st.errors ++ [a.title ++ ": " ++ message]
              sent := st.sent ++ [a] } (by simp)
        simp only [List.length_append, List.length_singleton] at h1 h2 h3 h4 h5 h7 ⊢
        refine ⟨by rw [h1]; simp, ?_, ?_, ?_, a :: suf', by rw [h5]; simp, by simp [h6], ?_⟩
        · rw [h2, List.length_cons, List.range'_succ, List.countP_cons]
          simp [ho]
        · rw [h3, List.length_cons, List.range'_succ, List.countP_cons]
          simp only [ho]
          simp
          omega
        · rw [h4, List.enumFrom_cons, List.filterMap_cons]
          simp only [ho, List.append_assoc, List.singleton_append]
        · intro j t hj
          cases j with
          | zero =>
            simp only [List.getElem?_cons_zero, Option.some.injEq] at hj
            subst hj
            simp [hp, ho]
          | succ j =>
            simp only [List.getElem?_cons_succ] at hj
            simp only [List.getElem?_cons_succ, List.take_succ_cons, List.countP_cons, hp,
              if_true]
            have := h7 j t hj
            rw [this]
            have harith : st.sent.length + 1 + List.countP p (List.take j as)
                = st.sent.length + (List.countP p (List.take j as) + 1) := by omega
            rw [harith]
    · -- the task is passed over
      have hrefs : (filterRefs p (a :: as)).map (· + pre.length)
          = (filterRefs p as).map (· + (pre ++ [a]).length) := by
        rw [filterRefs_cons]
        simp only [hp, Bool.false_eq_true, if_false, List.nil_append]
        exact hshift a _
      have hst2 : st.tasks = (pre ++ [a]) ++ as := by simp [hst]
      obtain ⟨h1, h2, h3, h4, suf', h5, h6, h7⟩ := ih (pre ++ [a]) st hst2
      rw [hrefs]
      have hfilter : (a :: as).filter p = as.filter p := by simp [hp]
      rw [hfilter]
      refine ⟨h1, h2, h3, h4, a :: suf', by rw [h5]; simp, by simp [h6], ?_⟩
      intro j t hj
      cases j with
      | zero =>
        simp only [List.getElem?_cons_zero, Option.some.injEq] at hj
        subst hj
        simp [hp]
      | succ j =>
        simp only [List.getElem?_cons_succ] at hj
        simp only [List.getElem?_cons_succ, List.take_succ_cons, List.countP_cons, hp,
          Bool.false_eq_true, if_false, Nat.add_zero]
        exact h7 j t hj

theorem filterRefs_length (p : Task → Bool) (tasks : List Task) :
    (filterRefs p tasks).length = (tasks.filter p).length := by
  induction tasks with
  | nil => simp [filterRefs]
  | cons t ts ih =>
    rw [filterRefs_cons]
    by_cases hp : p t = true
    · simp [hp, ih]
    · simp [hp, ih]

theorem syncDay_nothing_to_sync (outcome : Nat → SendOutcome) (dateStr : String)
    (tasks : List Task)
    (hE : tasks.filter (fun t => t.date == dateStr &&
      (!t.completed && !syncedTruthy t.syncedToTickTick)) = []) :
    syncDayTasksToTickTick outcome dateStr tasks =
      { result := { success := 0, failed := 0, message := "没有需要同步的任务" }
        tasks := tasks, errors := [], sent := [] } := by
  have hrefs := filterRefs_filter (fun t => t.date == dateStr)
    (fun t => !t.completed && !syncedTruthy t.syncedToTickTick) tasks
  have hlen : (filterRefs (fun t => t.date == dateStr &&
      (!t.completed && !syncedTruthy t.syncedToTickTick)) tasks).length = 0 := by
    rw [filterRefs_length, hE]
    rfl
  simp only [syncDayTasksToTickTick, hrefs, hlen, if_true]

/-- A run of `syncDayTasksToTickTick` on any collection, told through the
list of the tasks the two filters select. -/
theorem syncDay_run (outcome : Nat → SendOutcome) (dateStr : String) (tasks : List Task) :
    (syncDayTasksToTickTick outcome dateStr tasks).sent
      = tasks.filter (fun t => t.date == dateStr &&
          (!t.completed && !syncedTruthy t.syncedToTickTick)) ∧
    (syncDayTasksToTickTick outcome dateStr tasks).result.success
      = (List.range (tasks.filter (fun t => t.date == dateStr &&
          (!t.completed && !syncedTruthy t.syncedToTickTick))).length).countP
            (fun k => outcome k = .resolved) ∧
    (syncDayTasksToTickTick outcome dateStr tasks).result.failed
      = (List.range (tasks.filter (fun t => t.date == dateStr &&
          (!t.completed && !syncedTruthy t.syncedToTickTick))).length).countP
            (fun k => ¬ outcome k = .resolved) ∧
    (syncDayTasksToTickTick outcome dateStr tasks).errors
      = (tasks.filter (fun t => t.date == dateStr &&
          (!t.completed && !syncedTruthy t.syncedToTickTick))).enum.filterMap (fun kt =>
            match outcome kt.1 with
            | .threw message => some (kt.2.title ++ ": " ++ message)
            | .resolved => none) ∧
    (syncDayTasksToTickTick outcome dateStr tasks).tasks.length = tasks.length ∧
    ∀ j t, tasks[j]? = some t →
      (syncDayTasksToTickTick outcome dateStr tasks).tasks[j]? =
        some (if (t.date == dateStr && (!t.completed && !syncedTruthy t.syncedToTickTick)) then
          (match outcome ((tasks.take j).countP (fun t => t.date == dateStr &&
              (!t.completed && !syncedTruthy t.syncedToTickTick))) with
            | .resolved => { t with syncedToTickTick := some true }
            | .threw _ => t)
          else t) := by
  have hrefs := filterRefs_filter (fun t => t.date == dateStr)
    (fun t => !t.completed && !syncedTruthy t.syncedToTickTick) tasks
  by_cases hE : (tasks.filter (fun t => t.date == dateStr &&
      (!t.completed && !syncedTruthy t.syncedToTickTick))) = []
  · -- nothing to sync: the early return
    have hrun := syncDay_nothing_to_sync outcome dateStr tasks hE
    rw [hrun, hE]
    refine ⟨rfl, rfl, rfl, rfl, rfl, ?_⟩
    intro j t hj
    have hnot : (t.date == dateStr && (!t.completed && !syncedTruthy t.syncedToTickTick))
        = false := by
      have hmem : t ∈ tasks := List.mem_iff_getElem?.mpr ⟨j, hj⟩
      have := List.filter_eq_nil_iff.mp hE t hmem
      simpa using this
    simp only [hj, hnot, Bool.false_eq_true, if_false]
  · -- the loop
    have hlen : ¬ (filterRefs (fun t => t.date == dateStr &&
        (!t.completed && !syncedTruthy t.syncedToTickTick)) tasks).length = 0 := by
      rw [filterRefs_length]
      intro h0
      exact hE (List.length_eq_zero.mp h0)
    obtain ⟨h1, h2, h3, h4, suf', h5, h6, h7⟩ := syncLoop_spec outcome
      (fun t => t.date == dateStr && (!t.completed && !syncedTruthy t.syncedToTickTick))
      tasks [] { tasks := tasks, success := 0, failed := 0, errors := [], sent := [] } rfl
    simp only [List.length_nil, Nat.add_zero, List.map_id', List.nil_append, Nat.zero_add]
      at h1 h2 h3 h4 h5 h7
    simp only [syncDayTasksToTickTick, hrefs, hlen, if_false]
    refine ⟨h1, by rw [h2, List.range_eq_range'], by rw [h3, List.range_eq_range'],
      by rw [h4, List.enum_eq_enumFrom], by rw [h5, h6], ?_⟩
    intro j t hj
    rw [h5]
    exact h7 j t hj

theorem syncDay_message (outcome : Nat → SendOutcome) (dateStr : String) (tasks : List Task) :
    (syncDayTasksToTickTick outcome dateStr tasks).result.message =
      if tasks.filter (fun t => t.date == dateStr &&
          (!t.completed && !syncedTruthy t.syncedToTickTick)) = [] then "没有需要同步的任务"
      else if (syncDayTasksToTickTick outcome dateStr tasks).errors.length > 0 then
        "\n".intercalate (syncDayTasksToTickTick outcome dateStr tasks).errors
      else "全部同步成功" := by
  have hrefs := filterRefs_filter (fun t => t.date == dateStr)
    (fun t => !t.completed && !syncedTruthy t.syncedToTickTick) tasks
  by_cases hE : (tasks.filter (fun t => t.date == dateStr &&
      (!t.completed && !syncedTruthy t.syncedToTickTick))) = []
  · rw [syncDay_nothing_to_sync outcome dateStr tasks hE, if_pos hE]
  · have hlen : ¬ (filterRefs (fun t => t.date == dateStr &&
        (!t.completed && !syncedTruthy t.syncedToTickTick)) tasks).length = 0 := by
      rw [filterRefs_length]
      intro h0
      exact hE (List.length_eq_zero.mp h0)
    rw [if_neg hE]
    simp only [syncDayTasksToTickTick, hrefs, hlen, if_false]

theorem errors_length (outcome : Nat → SendOutcome) (l : List Task) (k : Nat) :
    ((List.enumFrom k l).filterMap (fun kt =>
      match outcome kt.1 with
      | .threw message => some (kt.2.title ++ ": " ++ message)
      | .resolved => none)).length
      = (List.range' k l.length).countP (fun k => ¬ outcome k = .resolved) := by
  induction l generalizing k with
  | nil => simp
  | cons a as ih =>
    rw [List.enumFrom_cons, List.filterMap_cons, List.length_cons, List.range'_succ,
      List.countP_cons]
    cases ho : outcome k with
    | resolved => simp [ho, ih]
    | threw message => simp [ho, ih]

/-- C1: when every task of the collection is eligible for the date (its date
is the date, it is not completed and not synced), then whatever the outcome
of each send, `syncDayTasksToTickTick` sends every task, in order, a failure
not stopping the later sends; `success` is the number of sends that resolved
and `failed` the number that threw, so that they add up to the number of
tasks; the task of a resolved send has `syncedToTickTick = true` afterwards
and is otherwise as before, the task of a failed send is as before, not
synced; and `errors` holds one entry `title: message` for each failed send,
in task order, the returned `message` being these entries joined by line
breaks. -/
theorem sync_continues_on_failure (outcome : Nat → SendOutcome) (dateStr : String)
    (tasks : List Task)
    (h : ∀ t ∈ tasks, t.date = dateStr ∧ t.completed = false ∧
      syncedTruthy t.syncedToTickTick = false) :
    (syncDayTasksToTickTick outcome dateStr tasks).sent = tasks ∧
    (syncDayTasksToTickTick outcome dateStr tasks).result.success
      = (List.range tasks.length).countP (fun k => outcome k = .resolved) ∧
    (syncDayTasksToTickTick outcome dateStr tasks).result.failed
      = (List.range tasks.length).countP (fun k => ¬ outcome k = .resolved) ∧
    (syncDayTasksToTickTick outcome dateStr tasks).result.success
      + (syncDayTasksToTickTick outcome dateStr tasks).result.failed = tasks.length ∧
    (syncDayTasksToTickTick outcome dateStr tasks).errors
      = tasks.enum.filterMap (fun kt =>
          match outcome kt.1 with
          | .threw message => some (kt.2.title ++ ": " ++ message)
          | .resolved => none) ∧
    (syncDayTasksToTickTick outcome dateStr tasks).errors.length
      = (syncDayTasksToTickTick outcome dateStr tasks).result.failed ∧
    (syncDayTasksToTickTick outcome dateStr tasks).result.message
      = (if tasks = [] then "没有需要同步的任务"
        else if (syncDayTasksToTickTick outcome dateStr tasks).errors.length > 0 then
          "\n".intercalate (syncDayTasksToTickTick outcome dateStr tasks).errors
        else "全部同步成功") ∧
    (syncDayTasksToTickTick outcome dateStr tasks).tasks.length = tasks.length ∧
    ∀ k t, tasks[k]? = some t →
      (outcome k = .resolved →
        (syncDayTasksToTickTick outcome dateStr tasks).tasks[k]?
          = some { t with syncedToTickTick := some true }) ∧
      (∀ message, outcome k = .threw message →
        (syncDayTasksToTickTick outcome dateStr tasks).tasks[k]? = some t ∧
        syncedTruthy t.syncedToTickTick = false) := by
  have hall : ∀ t ∈ tasks, (t.date == dateStr &&
      (!t.completed && !syncedTruthy t.syncedToTickTick)) = true := by
    intro t ht
    obtain ⟨h1, h2, h3⟩ := h t ht
    simp [h1, h2, h3]
  have hfilter : tasks.filter (fun t => t.date == dateStr &&
      (!t.completed && !syncedTruthy t.syncedToTickTick)) = tasks :=
    List.filter_eq_self.mpr hall
  obtain ⟨h1, h2, h3, h4, h5, h6⟩ := syncDay_run outcome dateStr tasks
  rw [hfilter] at h1 h2 h3 h4
  have hmsg := syncDay_message outcome dateStr tasks
  rw [hfilter] at hmsg
  refine ⟨h1, h2, h3, ?_, h4, ?_, hmsg, h5, ?_⟩
  · have hsum := List.length_eq_countP_add_countP
      (fun k => decide (outcome k = .resolved)) (List.range tasks.length)
    simp only [List.length_range, decide_eq_true_eq] at hsum
    rw [h2, h3]
    exact hsum.symm
  · rw [h4, h3, List.enum_eq_enumFrom, errors_length, List.range_eq_range']
  · intro k t hk
    have hkt := h6 k t hk
    have hmem : t ∈ tasks := List.mem_iff_getElem?.mpr ⟨k, hk⟩
    have hklt : k < tasks.length := by
      rcases Nat.lt_or_ge k tasks.length with hlt | hge
      · exact hlt
      · rw [List.getElem?_eq_none hge] at hk
        exact absurd hk (by simp)
    have hcount : (tasks.take k).countP (fun t => t.date == dateStr &&
        (!t.completed && !syncedTruthy t.syncedToTickTick)) = k := by
      have hc : (tasks.take k).countP (fun t => t.date == dateStr &&
          (!t.completed && !syncedTruthy t.syncedToTickTick)) = (tasks.take k).length :=
        List.countP_eq_length.mpr (fun t ht => hall t (List.mem_of_mem_take ht))
      rw [hc, List.length_take]
      omega
    rw [hcount, hall t hmem] at hkt
    refine ⟨fun ho => ?_, fun message ho => ⟨?_, (h t hmem).2.2⟩⟩
    · rw [hkt]
      simp only [ho, if_true]
    · rw [hkt]
      simp only [ho, if_true]

/-- Witness of C1: three eligible tasks of 2024-06-15, the second send
throws.  The run reports 2 successes and 1 failure, the first and the third
task are synced, the second is not, and there is one error entry. -/
theorem sync_continues_on_failure_witness :
    (syncDayTasksToTickTick (fun k => if k = 1 then .threw "HTTP 500" else .resolved)
      "2024-06-15"
      [{ id := "m1", title := "a", date := "2024-06-15", time := "09:00", endTime := none,
         priority := "urgent-important", completed := false, createdAt := "c1",
         syncedToTickTick := none },
       { id := "m2", title := "b", date := "2024-06-15", time := "10:00", endTime := none,
         priority := "urgent-important", completed := false, createdAt := "c2",
         syncedToTickTick := some false },
       { id := "m3", title := "c", date := "2024-06-15", time := "11:00", endTime := none,
         priority := "urgent-important", completed := false, createdAt := "c3",
         syncedToTickTick := none }]).result.success
    + (syncDayTasksToTickTick (fun k => if k = 1 then .threw "HTTP 500" else .resolved)
      "2024-06-15"
      [{ id := "m1", title := "a", date := "2024-06-15", time := "09:00", endTime := none,
         priority := "urgent-important", completed := false, createdAt := "c1",
         syncedToTickTick := none },
       { id := "m2", title := "b", date := "2024-06-15", time := "10:00", endTime := none,
         priority := "urgent-important", completed := false, createdAt := "c2",
         syncedToTickTick := some false },
       { id := "m3", title := "c", date := "2024-06-15", time := "11:00", endTime := none,
         priority := "urgent-important", completed := false, createdAt := "c3",
         syncedToTickTick := none }]).result.failed = 3 ∧
    (syncDayTasksToTickTick (fun k => if k = 1 then .threw "HTTP 500" else .resolved)
      "2024-06-15"
      [{ id := "m1", title := "a", date := "2024-06-15", time := "09:00", endTime := none,
         priority := "urgent-important", completed := false, createdAt := "c1",
         syncedToTickTick := none },
       { id := "m2", title := "b", date := "2024-06-15", time := "10:00", endTime := none,
         priority := "urgent-important", completed := false, createdAt := "c2",
         syncedToTickTick := some false },
       { id := "m3", title := "c", date := "2024-06-15", time := "11:00", endTime := none,
         priority := "urgent-important", completed := false, createdAt := "c3",
         syncedToTickTick := none }]) =
      { result := { success := 2, failed := 1, message := "b: HTTP 500" }
        tasks :=
          [{ id := "m1", title := "a", date := "2024-06-15", time := "09:00", endTime := none,
             priority := "urgent-important", completed := false, createdAt := "c1",
             syncedToTickTick := some true },
           { id := "m2", title := "b", date := "2024-06-15", time := "10:00", endTime := none,
             priority := "urgent-important", completed := false, createdAt := "c2",
             syncedToTickTick := some false },
           { id := "m3", title := "c", date := "2024-06-15", time := "11:00", endTime := none,
             priority := "urgent-important", completed := false, createdAt := "c3",
             syncedToTickTick := some true }]
        errors := ["b: HTTP 500"]
        sent :=
          [{ id := "m1", title := "a", date := "2024-06-15", time := "09:00", endTime := none,
             priority := "urgent-important", completed := false, createdAt := "c1",
             syncedToTickTick := none },
           { id := "m2", title := "b", date := "2024-06-15", time := "10:00", endTime := none,
             priority := "urgent-important", completed := false, createdAt := "c2",
             syncedToTickTick := some false },
           { id := "m3", title := "c", date := "2024-06-15", time := "11:00", endTime := none,
             priority := "urgent-important", completed := false, createdAt := "c3",
             syncedToTickTick := none }] } :=
  ⟨(sync_continues_on_failure _ "2024-06-15" _ (by decide)).2.2.2.1, by decide⟩

/-! ## Expiry -/

/-- The calendar functions on known dates: leap days of 2000 and 2024, the
missing leap day of 2100, the day before the epoch, the ends of the
four-digit years. -/
theorem calendar_samples :
    isoDate 0 = "1970-01-01" ∧ isoDate (-1) = "1969-12-31" ∧
    isoDate 11016 = "2000-02-29" ∧ isoDate 19782 = "2024-02-29" ∧
    isoDate 19783 = "2024-03-01" ∧ isoDate 47540 = "2100-02-28" ∧
    isoDate 47541 = "2100-03-01" ∧ isoDate (-719162) = "0001-01-01" ∧
    isoDate 2932896 = "9999-12-31" ∧ isoDate 2932897 = "+010000-01-01" ∧
    daysFromCivil 2024 6 15 = 19889 ∧ daysFromCivil 1970 1 1 = 0 := by
  decide

/-- The cut-off of `cleanupExpiredTasks`, for a local day `T` (the day number
of the local date of `now`): when local time at the cut-off is at UTC or
behind it, the cut-off is the date of `T - 7`; when it is ahead of UTC, it is
the date of `T - 8`, because local midnight is still the day before in UTC,
which is the date `toISOString` prints. -/
theorem cleanupExpiredTasks_cutoff (now tzNow tzToday tzCutoff : Int) (tasks : List Task)
    (hlo : -1440 < tzCutoff) (hhi : tzCutoff ≤ 1440) :
    (cleanupExpiredTasks now tzNow tzToday tzCutoff tasks).2 =
      tasks.filter (fun t => !jsLt t.date
        (isoDate ((now + tzNow * 60000) / msPerDay - (if 0 < tzCutoff then 8 else 7)))) := by
  have hday : ((now + tzNow * 60000) / msPerDay * msPerDay - tzToday * 60000
      + tzToday * 60000 - 7 * msPerDay - tzCutoff * 60000) / msPerDay =
      (now + tzNow * 60000) / msPerDay - (if 0 < tzCutoff then 8 else 7) := by
    unfold msPerDay
    split_ifs <;> omega
  simp only [cleanupExpiredTasks, getDateString, hday, jsGe]

/-- A change of daylight saving inside the seven days: in London at noon of
2024-11-01 local time is at UTC, on 2024-10-25 it was an hour ahead, the
cut-off string is `"2024-10-24"` and a task of that date is retained. -/
theorem cleanupExpiredTasks_daylight_saving :
    isoDate (1730462400000 / msPerDay) = "2024-11-01" ∧
    cleanupExpiredTasks 1730462400000 0 0 60
      [{ id := "m1", title := "old", date := "2024-10-24", time := "09:00", endTime := none,
         priority := "urgent-important", completed := false,
         createdAt := "2024-10-24T08:00:00.000Z", syncedToTickTick := none }] =
      (0,
       [{ id := "m1", title := "old", date := "2024-10-24", time := "09:00", endTime := none,
          priority := "urgent-important", completed := false,
          createdAt := "2024-10-24T08:00:00.000Z", syncedToTickTick := none }]) := by
  refine ⟨by decide, by decide⟩

/-- C2, as the code has it: with `now` = 2024-06-15T02:00:00Z in a runtime at
UTC+8, where the local date is 2024-06-15, the cut-off string is
`"2024-06-07"` and the task dated 2024-06-07 is retained, no task is removed;
the same collection at UTC loses that task. -/
theorem cleanupExpiredTasks_east_of_utc :
    isoDate ((1718416800000 + 480 * 60000) / msPerDay) = "2024-06-15" ∧
    isoDate ((1718416800000 + 480 * 60000) / msPerDay - 7) = "2024-06-08" ∧
    cleanupExpiredTasks 1718416800000 480 480 480
      [{ id := "m1", title := "old", date := "2024-06-07", time := "09:00", endTime := none,
         priority := "urgent-important", completed := false,
         createdAt := "2024-06-07T01:00:00.000Z", syncedToTickTick := none },
       { id := "m2", title := "new", date := "2024-06-08", time := "09:00", endTime := none,
         priority := "urgent-important", completed := false,
         createdAt := "2024-06-08T01:00:00.000Z", syncedToTickTick := none }] =
      (0,
       [{ id := "m1", title := "old", date := "2024-06-07", time := "09:00", endTime := none,
          priority := "urgent-important", completed := false,
          createdAt := "2024-06-07T01:00:00.000Z", syncedToTickTick := none },
        { id := "m2", title := "new", date := "2024-06-08", time := "09:00", endTime := none,
          priority := "urgent-important", completed := false,
          createdAt := "2024-06-08T01:00:00.000Z", syncedToTickTick := none }]) ∧
    cleanupExpiredTasks 1718416800000 0 0 0
      [{ id := "m1", title := "old", date := "2024-06-07", time := "09:00", endTime := none,
         priority := "urgent-important", completed := false,
         createdAt := "2024-06-07T01:00:00.000Z", syncedToTickTick := none },
       { id := "m2", title := "new", date := "2024-06-08", time := "09:00", endTime := none,
         priority := "urgent-important", completed := false,
         createdAt := "2024-06-08T01:00:00.000Z", syncedToTickTick := none }] =
      (1,
       [{ id := "m2", title := "new", date := "2024-06-08", time := "09:00", endTime := none,
          priority := "urgent-important", completed := false,
          createdAt := "2024-06-08T01:00:00.000Z", syncedToTickTick := none }]) := by
  refine ⟨by decide, by decide, by decide, by decide⟩

/-! ## Editing a task -/

/-- C3: when some task of the collection has the id `taskId`, `editTask`
returns `true`, and the task object it found (the first one with that id,
at reference `i`) afterwards carries, for every property, the value of
`updates` when `updates` supplies the property and its value before the edit
otherwise, except that `syncedToTickTick` is `false` whatever it was and
whatever `updates` says.  No other task changes, and unless `updates` changes
the id, looking the id up again yields the same object. -/
theorem editTask_read_back (taskId : String) (updates : TaskUpdates) (tasks : List Task)
    (h : ∃ t ∈ tasks, t.id = taskId) :
    (editTask taskId updates tasks).1 = true ∧
    ∃ i old new,
      findRef (fun t => t.id == taskId) tasks = some i ∧
      tasks[i]? = some old ∧ old.id = taskId ∧
      (editTask taskId updates tasks).2[i]? = some new ∧
      new.id = (match updates.id with | some v => v | none => old.id) ∧
      new.title = (match updates.title with | some v => v | none => old.title) ∧
      new.date = (match updates.date with | some v => v | none => old.date) ∧
      new.time = (match updates.time with | some v => v | none => old.time) ∧
      new.endTime = (match updates.endTime with | some v => v | none => old.endTime) ∧
      new.priority = (match updates.priority with | some v => v | none => old.priority) ∧
      new.completed = (match updates.completed with | some v => v | none => old.completed) ∧
      new.createdAt = (match updates.createdAt with | some v => v | none => old.createdAt) ∧
      new.syncedToTickTick = some false ∧
      (editTask taskId updates tasks).2.length = tasks.length ∧
      (∀ j, j ≠ i → (editTask taskId updates tasks).2[j]? = tasks[j]?) ∧
      ((updates.id = none ∨ updates.id = some taskId) →
        findRef (fun t => t.id == taskId) (editTask taskId updates tasks).2 = some i) := by
  obtain ⟨t, hm, ht⟩ := h
  obtain ⟨i, hi⟩ := findRef_isSome_of_mem (p := fun t => t.id == taskId) hm (by simp [ht])
  obtain ⟨old, hold, hpold, hfirst⟩ := findRef_some_spec hi
  have hid : old.id = taskId := by simpa using hpold
  have hres : editTask taskId updates tasks =
      (true, updateRef (fun t => { assign t updates with syncedToTickTick := some false })
        i tasks) := by
    simp only [editTask, hi]
  refine ⟨by rw [hres], i, old, { assign old updates with syncedToTickTick := some false },
    hi, hold, hid, ?_, ?_, ?_, ?_, ?_, ?_, ?_, ?_, ?_, rfl, ?_, ?_, ?_⟩
  · rw [hres]
    simp only [updateRef_getElem?_self, hold, Option.map_some']
  · cases hu : updates.id <;> simp [assign, hu]
  · cases hu : updates.title <;> simp [assign, hu]
  · cases hu : updates.date <;> simp [assign, hu]
  · cases hu : updates.time <;> simp [assign, hu]
  · cases hu : updates.endTime <;> simp [assign, hu]
  · cases hu : updates.priority <;> simp [assign, hu]
  · cases hu : updates.completed <;> simp [assign, hu]
  · cases hu : updates.createdAt <;> simp [assign, hu]
  · rw [hres]
    exact updateRef_length _ _ _
  · intro j hj
    rw [hres]
    exact updateRef_getElem?_ne _ hj _
  · intro hu
    rw [hres]
    -- the edited object keeps the id, and no earlier object has it
    have key : ∀ (ts : List Task) (k : Nat), findRef (fun t => t.id == taskId) ts = some k →
        findRef (fun t => t.id == taskId)
          (updateRef (fun t => { assign t updates with syncedToTickTick := some false }) k ts)
          = some k := by
      intro ts
      induction ts with
      | nil => intro k hk; simp [findRef] at hk
      | cons a as ih =>
        intro k hk
        by_cases ha : a.id = taskId
        · have hk0 : k = 0 := by
            simp only [findRef, ha, beq_self_eq_true, if_true, Option.some.injEq] at hk
            exact hk.symm
          subst hk0
          rcases hu with hu | hu <;> simp [updateRef, findRef, assign, hu, ha]
        · have ha2 : (a.id == taskId) = false := by simpa using ha
          simp only [findRef, ha2, Bool.false_eq_true, if_false, Option.map_eq_some'] at hk
          obtain ⟨k2, hk2, rfl⟩ := hk
          simp [updateRef, findRef, ha2, ih k2 hk2]
    exact key tasks i hi

/-- Witness of C3: a synced task is edited with a new title and a cleared end
time; it comes back with both, the other fields as before, and not synced. -/
theorem editTask_read_back_witness :
    (editTask "a1"
      { id := none, title := some "call Bo", date := none, time := none, endTime := some none,
        priority := none, completed := none, createdAt := none, syncedToTickTick := none }
      [{ id := "a1", title := "call Al", date := "2024-06-15", time := "09:00",
         endTime := some "10:00", priority := "urgent-important", completed := false,
         createdAt := "2024-06-14T08:00:00.000Z", syncedToTickTick := some true }]).1 = true ∧
    (editTask "a1"
      { id := none, title := some "call Bo", date := none, time := none, endTime := some none,
        priority := none, completed := none, createdAt := none, syncedToTickTick := none }
      [{ id := "a1", title := "call Al", date := "2024-06-15", time := "09:00",
         endTime := some "10:00", priority := "urgent-important", completed := false,
         createdAt := "2024-06-14T08:00:00.000Z", syncedToTickTick := some true }]).2 =
      [{ id := "a1", title := "call Bo", date := "2024-06-15", time := "09:00",
         endTime := none, priority := "urgent-important", completed := false,
         createdAt := "2024-06-14T08:00:00.000Z", syncedToTickTick := some false }] :=
  ⟨(editTask_read_back "a1" _ _ ⟨_, List.mem_singleton.mpr rfl, rfl⟩).1, by decide⟩

/-! ## Sync of a day: the tasks selected -/

/-- C4: on any collection and any date, `syncDayTasksToTickTick` hands to
`sendTaskToTickTick` exactly the tasks of `getTasksByDate` for the date that
are not completed and not synced, in collection order; a task with another
date, or completed, or already synced is the same afterwards, and of every
task nothing but `syncedToTickTick` can differ afterwards; when no task is
selected, nothing is sent, the collection is unchanged and the result is
`success = 0`, `failed = 0` with the message that there is nothing to
sync. -/
theorem sync_selects_eligible (outcome : Nat → SendOutcome) (dateStr : String)
    (tasks : List Task) :
    (syncDayTasksToTickTick outcome dateStr tasks).sent
      = (getTasksByDate dateStr tasks).filter
          (fun t => !t.completed && !syncedTruthy t.syncedToTickTick) ∧
    (syncDayTasksToTickTick outcome dateStr tasks).tasks.length = tasks.length ∧
    (∀ (i : Nat) (t : Task), tasks[i]? = some t →
      (t.date ≠ dateStr ∨ t.completed = true ∨ syncedTruthy t.syncedToTickTick = true) →
      (syncDayTasksToTickTick outcome dateStr tasks).tasks[i]? = some t) ∧
    (∀ (i : Nat) (t : Task), tasks[i]? = some t →
      ∃ t', (syncDayTasksToTickTick outcome dateStr tasks).tasks[i]? = some t' ∧
        { t' with syncedToTickTick := t.syncedToTickTick } = t) ∧
    ((getTasksByDate dateStr tasks).filter
        (fun t => !t.completed && !syncedTruthy t.syncedToTickTick) = [] →
      syncDayTasksToTickTick outcome dateStr tasks =
        { result := { success := 0, failed := 0, message := "没有需要同步的任务" }
          tasks := tasks, errors := [], sent := [] }) := by
  have hsel : (getTasksByDate dateStr tasks).filter
      (fun t => !t.completed && !syncedTruthy t.syncedToTickTick)
      = tasks.filter (fun t => t.date == dateStr &&
          (!t.completed && !syncedTruthy t.syncedToTickTick)) := by
    unfold getTasksByDate
    rw [List.filter_filter]
    congr 1
    funext t
    exact Bool.and_comm _ _
  obtain ⟨h1, -, -, -, h5, h6⟩ := syncDay_run outcome dateStr tasks
  refine ⟨by rw [h1, hsel], h5, ?_, ?_, ?_⟩
  · intro i t hi hnot
    rw [h6 i t hi]
    have : (t.date == dateStr && (!t.completed && !syncedTruthy t.syncedToTickTick))
        = false := by
      rcases hnot with hd | hc | hs
      · simp [hd]
      · simp [hc]
      · simp [hs]
    simp only [this, Bool.false_eq_true, if_false]
  · intro i t hi
    rw [h6 i t hi]
    refine ⟨_, rfl, ?_⟩
    split_ifs
    · cases outcome ((tasks.take i).countP (fun t => t.date == dateStr &&
          (!t.completed && !syncedTruthy t.syncedToTickTick))) <;> rfl
    · rfl
  · intro hnone
    exact syncDay_nothing_to_sync outcome dateStr tasks (hsel ▸ hnone)

/-! ## Conversion to the TickTick shape -/

theorem priority_lookup (key : String) :
    (match TICKTICK_PRIORITY_MAP key with
      | .own n => if n != 0 then PriorityValue.number n else PriorityValue.number 0
      | .inherited name => PriorityValue.inherited name
      | .undefined => PriorityValue.number 0) =
    (if key = "urgent-important" then PriorityValue.number 5
      else if key = "not-urgent-important" then PriorityValue.number 3
      else if key = "urgent-not-important" then PriorityValue.number 3
      else if key = "not-urgent-not-important" then PriorityValue.number 1
      else if key ∈ objectPrototypeKeys then PriorityValue.inherited key
      else PriorityValue.number 0) := by
  unfold TICKTICK_PRIORITY_MAP PRIORITY.URGENT_IMPORTANT PRIORITY.NOT_URGENT_IMPORTANT
    PRIORITY.URGENT_NOT_IMPORTANT PRIORITY.NOT_URGENT_NOT_IMPORTANT
  split_ifs <;> rfl

/-- C5, as the code has it: a task whose date field was left empty makes
`new Date("T09:00:00").toISOString()` throw, and `convertToTickTickTask`
yields no object at all, whatever the priority; and for the priority value
`"constructor"` the lookup finds the member that the table inherits from
`Object.prototype`, so the priority of the object is that member and not
0. -/
theorem convertToTickTickTask_throws :
    convertToTickTickTask (dateToISOString 480)
      { id := "m1", title := "tea", date := "", time := "09:00", endTime := none,
        priority := "urgent-important", completed := false,
        createdAt := "2024-06-15T01:00:00.000Z", syncedToTickTick := none } =
      .error "Invalid time value" ∧
    convertToTickTickTask (dateToISOString 480)
      { id := "m1", title := "tea", date := "2024-06-15", time := "09:00", endTime := none,
        priority := "constructor", completed := false,
        createdAt := "2024-06-15T01:00:00.000Z", syncedToTickTick := none } =
      .ok { title := "tea", startDate := "2024-06-15T01:00:00.000Z",
            priority := .inherited "constructor", isAllDay := false, dueDate := none } ∧
    PriorityValue.inherited "constructor" ≠ PriorityValue.number 0 := by
  refine ⟨by rfl, by rfl, by decide⟩

/-- C5, amended: what `convertToTickTickTask` does with any task, in any
runtime.  When the runtime rejects the start stamp `date + "T" + time + ":00"`,
or accepts it and rejects the due stamp `date + "T" + endTime + ":00"` of a
non-empty `endTime`, the `RangeError` of `toISOString` leaves the function and
no object is yielded.  In every other case the function yields an object with
the title and the converted start of the task, `isAllDay = false`, no
`dueDate` when `endTime` is `null` or empty and the converted due stamp as
`dueDate` when `endTime` is not empty, and as priority 5 for
urgent-important, 3 for not-urgent-important, 3 for urgent-not-important, 1
for not-urgent-not-important, the inherited member for a value that names a
member of `Object.prototype`, and 0 for every other value. -/
theorem convertToTickTickTask_fields (toISOString : String → Except String String)
    (task : Task) :
    (∀ e : String, toISOString (task.date ++ "T" ++ task.time ++ ":00") = .error e →
      convertToTickTickTask toISOString task = .error e) ∧
    (∀ s endTime e : String,
      toISOString (task.date ++ "T" ++ task.time ++ ":00") = .ok s →
      task.endTime = some endTime → endTime ≠ "" →
      toISOString (task.date ++ "T" ++ endTime ++ ":00") = .error e →
      convertToTickTickTask toISOString task = .error e) ∧
    (∀ s : String, toISOString (task.date ++ "T" ++ task.time ++ ":00") = .ok s →
      (task.endTime = none ∨ task.endTime = some "") →
      convertToTickTickTask toISOString task =
        .ok { title := task.title
              startDate := s
              priority :=
                if task.priority = "urgent-important" then .number 5
                else if task.priority = "not-urgent-important" then .number 3
                else if task.priority = "urgent-not-important" then .number 3
                else if task.priority = "not-urgent-not-important" then .number 1
                else if task.priority ∈ objectPrototypeKeys then .inherited task.priority
                else .number 0
              isAllDay := false
              dueDate := none }) ∧
    (∀ s endTime d : String,
      toISOString (task.date ++ "T" ++ task.time ++ ":00") = .ok s →
      task.endTime = some endTime → endTime ≠ "" →
      toISOString (task.date ++ "T" ++ endTime ++ ":00") = .ok d →
      convertToTickTickTask toISOString task =
        .ok { title := task.title
              startDate := s
              priority :=
                if task.priority = "urgent-important" then .number 5
                else if task.priority = "not-urgent-important" then .number 3
                else if task.priority = "urgent-not-important" then .number 3
                else if task.priority = "not-urgent-not-important" then .number 1
                else if task.priority ∈ objectPrototypeKeys then .inherited task.priority
                else .number 0
              isAllDay := false
              dueDate := some d }) := by
  refine ⟨?_, ?_, ?_, ?_⟩
  · intro e hStart
    simp only [convertToTickTickTask, hStart]
    rfl
  · intro s endTime e hStart hEnd hne hDue
    have htr : strTruthy endTime = true := by simp [strTruthy, hne]
    simp only [convertToTickTickTask, hStart, hEnd, htr, hDue]
    rfl
  · intro s hStart hEnd
    rw [← priority_lookup]
    rcases hEnd with hEnd | hEnd
    · simp only [convertToTickTickTask, hStart, hEnd]
      rfl
    · simp only [convertToTickTickTask, hStart, hEnd, strTruthy]
      rfl
  · intro s endTime d hStart hEnd hne hDue
    have htr : strTruthy endTime = true := by simp [strTruthy, hne]
    rw [← priority_lookup]
    simp only [convertToTickTickTask, hStart, hEnd, htr, hDue]
    rfl

/-- Witness of C5, amended: an urgent-not-important task from 09:00 to 10:30
on 2024-06-15, in a runtime at UTC+8, has priority 3 and a due date. -/
theorem convertToTickTickTask_fields_witness :
    convertToTickTickTask (dateToISOString 480)
      { id := "m1", title := "tea", date := "2024-06-15", time := "09:00",
        endTime := some "10:30", priority := "urgent-not-important", completed := false,
        createdAt := "2024-06-15T00:00:00.000Z", syncedToTickTick := none } =
      .ok { title := "tea", startDate := "2024-06-15T01:00:00.000Z", priority := .number 3,
            isAllDay := false, dueDate := some "2024-06-15T02:30:00.000Z" } :=
  ((convertToTickTickTask_fields (dateToISOString 480)
    { id := "m1", title := "tea", date := "2024-06-15", time := "09:00",
      endTime := some "10:30", priority := "urgent-not-important", completed := false,
      createdAt := "2024-06-15T00:00:00.000Z", syncedToTickTick := none }).2.2.2
    "2024-06-15T01:00:00.000Z" "10:30" "2024-06-15T02:30:00.000Z" (by rfl) rfl (by decide)
    (by rfl)).trans (by rfl)

/-! ## The time-range check of the two forms -/

theorem unitsLt_iff_lex (as bs : List Nat) :
    unitsLt as bs = true ↔ List.Lex (· < ·) as bs := by
  induction as generalizing bs with
  | nil =>
    cases bs with
    | nil => simp [unitsLt, List.Lex.not_nil_right]
    | cons b bs => simp [unitsLt, List.Lex.nil]
  | cons a as ih =>
    cases bs with
    | nil => simp [unitsLt, List.Lex.not_nil_right]
    | cons b bs =>
      simp only [unitsLt]
      rcases Nat.lt_trichotomy a b with h | h | h
      · simp [h, List.Lex.rel h]
      · subst h
        simp [ih, List.Lex.cons_iff]
      · have hab : ¬ a < b := by omega
        simp only [hab, if_false, h, if_true, Bool.false_eq_true, false_iff]
        intro hl
        cases hl with
        | cons _ => omega
        | rel hr => omega

theorem range_check_accepts_iff (time endTime : String) :
    (strTruthy endTime && jsLe endTime time) = false ↔
      (endTime = "" ∨ List.Lex (· < ·) (codeUnits time) (codeUnits endTime)) := by
  rw [← unitsLt_iff_lex]
  by_cases he : endTime = ""
  · simp [strTruthy, he]
  · simp [strTruthy, he, jsLe, jsLt]

/-- C6: once the title is not blank, the submit handler of the add form and
that of the edit form go through (no `alert`) exactly when `endTime` is
empty or strictly greater than `time` in the lexicographic order of their
UTF-16 code units, which is the order of `<=` on JavaScript strings; in every
other case both stop at the notice of the time range and leave the
collection as it was. -/
theorem time_range_check (newId now taskId titleField date time endTime priority : String)
    (tasks : List Task) (hTitle : jsTrim titleField ≠ "") :
    ((addTaskClick newId now titleField date time endTime priority tasks).alert = none ↔
      (endTime = "" ∨ List.Lex (· < ·) (codeUnits time) (codeUnits endTime))) ∧
    ((editSaveClick taskId titleField date time endTime priority tasks).alert = none ↔
      (endTime = "" ∨ List.Lex (· < ·) (codeUnits time) (codeUnits endTime))) ∧
    (¬ (endTime = "" ∨ List.Lex (· < ·) (codeUnits time) (codeUnits endTime)) →
      addTaskClick newId now titleField date time endTime priority tasks =
        { alert := some "结束时间必须晚于开始时间", tasks := tasks } ∧
      editSaveClick taskId titleField date time endTime priority tasks =
        { alert := some "结束时间必须晚于开始时间", tasks := tasks }) := by
  have ht : strTruthy (jsTrim titleField) = true := by simp [strTruthy, hTitle]
  rw [← range_check_accepts_iff]
  cases hc : (strTruthy endTime && jsLe endTime time) <;>
    simp [addTaskClick, editSaveClick, ht, hc]

/-- Witness of C6: with the title `"tea"`, the pair `("09:00", "09:00")` is
rejected by both forms and the pair `("09:00", "")` is accepted by both. -/
theorem time_range_check_witness :
    (addTaskClick "m1" "n" "tea" "2024-06-15" "09:00" "09:00" "urgent-important" []).alert
        ≠ none ∧
    (editSaveClick "m1" "tea" "2024-06-15" "09:00" "09:00" "urgent-important" []).alert
        ≠ none ∧
    (addTaskClick "m1" "n" "tea" "2024-06-15" "09:00" "" "urgent-important" []).alert = none ∧
    (editSaveClick "m1" "tea" "2024-06-15" "09:00" "" "urgent-important" []).alert = none :=
  have hTea : jsTrim "tea" ≠ "" := by decide
  have hEq : ¬ ("09:00" = "" ∨ List.Lex (· < ·) (codeUnits "09:00") (codeUnits "09:00")) := by
    rw [← range_check_accepts_iff]
    decide
  ⟨fun h => hEq ((time_range_check "m1" "n" "m1" "tea" "2024-06-15" "09:00" "09:00"
      "urgent-important" [] hTea).1.mp h),
    fun h => hEq ((time_range_check "m1" "n" "m1" "tea" "2024-06-15" "09:00" "09:00"
      "urgent-important" [] hTea).2.1.mp h),
    (time_range_check "m1" "n" "m1" "tea" "2024-06-15" "09:00" "" "urgent-important" []
      hTea).1.mpr (Or.inl rfl),
    (time_range_check "m1" "n" "m1" "tea" "2024-06-15" "09:00" "" "urgent-important" []
      hTea).2.1.mpr (Or.inl rfl)⟩

/-! ## Toggling completion -/

/-- C7: two calls of `toggleTaskComplete` with the same id leave the whole
collection as it was, so the task with that id is back at its original
`completed` value, while one call does flip `completed` of the first task
with that id; when no task has the id a call changes nothing. -/
theorem toggleTaskComplete_twice (taskId : String) (tasks : List Task) :
    toggleTaskComplete taskId (toggleTaskComplete taskId tasks) = tasks ∧
    (∀ i t, findRef (fun t => t.id == taskId) tasks = some i → tasks[i]? = some t →
      (toggleTaskComplete taskId tasks)[i]? = some { t with completed := !t.completed } ∧
      (toggleTaskComplete taskId (toggleTaskComplete taskId tasks))[i]? = some t) ∧
    ((∀ t ∈ tasks, t.id ≠ taskId) → toggleTaskComplete taskId tasks = tasks) := by
  have hkeep : ∀ t : Task,
      (fun t : Task => t.id == taskId) ((fun t : Task => { t with completed := !t.completed }) t)
        = (fun t : Task => t.id == taskId) t := fun _ => rfl
  have htwice : toggleTaskComplete taskId (toggleTaskComplete taskId tasks) = tasks := by
    cases hf : findRef (fun t => t.id == taskId) tasks with
    | none => simp [toggleTaskComplete, hf]
    | some i =>
      have h1 : toggleTaskComplete taskId tasks =
          updateRef (fun t => { t with completed := !t.completed }) i tasks := by
        simp only [toggleTaskComplete, hf]
      rw [h1]
      have h2 : findRef (fun t => t.id == taskId)
          (updateRef (fun t => { t with completed := !t.completed }) i tasks) = some i := by
        rw [findRef_updateRef hkeep, hf]
      simp only [toggleTaskComplete, h2]
      rw [updateRef_updateRef]
      exact updateRef_of_fixed (fun t => by simp) i tasks
  refine ⟨htwice, ?_, ?_⟩
  · intro i t hf ht
    refine ⟨?_, by rw [htwice]; exact ht⟩
    simp only [toggleTaskComplete, hf, updateRef_getElem?_self, ht, Option.map_some']
  · intro hno
    have hf : findRef (fun t => t.id == taskId) tasks = none :=
      findRef_eq_none.mpr (fun t ht => by simpa using hno t ht)
    simp [toggleTaskComplete, hf]

/-! ## Adding tasks and reading a date -/

theorem addTasks_eq_append (calls : List AddCall) (tasks : List Task) :
    addTasks calls tasks = tasks ++ calls.map (fun c =>
      (addTask c.newId c.now c.title c.date c.time c.endTime c.priority []).1) := by
  induction calls generalizing tasks with
  | nil => simp [addTasks]
  | cons c cs ih =>
    have hstep : addTasks (c :: cs) tasks =
        addTasks cs (addTask c.newId c.now c.title c.date c.time c.endTime c.priority tasks).2 :=
      rfl
    rw [hstep, ih]
    simp [addTask]

/-- C8: for the collection left by any sequence of `addTask` calls (on any
earlier collection) and any date string, `getTasksByDate` returns the tasks
of the collection whose `date` equals the string, and nothing else: the
result keeps the collection order, a task is in it exactly when it is in the
collection with that date, each such task as often as in the collection, and
the records of the calls made with that date all arrive, in call order. -/
theorem getTasksByDate_exact (calls : List AddCall) (init : List Task) (dateStr : String) :
    (getTasksByDate dateStr (addTasks calls init)).Sublist (addTasks calls init) ∧
    (∀ t, t ∈ getTasksByDate dateStr (addTasks calls init) ↔
      t ∈ addTasks calls init ∧ t.date = dateStr) ∧
    (∀ t, t.date = dateStr →
      (getTasksByDate dateStr (addTasks calls init)).count t = (addTasks calls init).count t) ∧
    getTasksByDate dateStr (addTasks calls init) =
      getTasksByDate dateStr init ++
        ((calls.filter (fun c => c.date == dateStr)).map (fun c =>
          (addTask c.newId c.now c.title c.date c.time c.endTime c.priority []).1)) := by
  refine ⟨List.filter_sublist _, ?_, ?_, ?_⟩
  · intro t
    simp [getTasksByDate]
  · intro t ht
    unfold getTasksByDate
    rw [List.count_filter]
    simp [ht]
  · rw [addTasks_eq_append]
    simp only [getTasksByDate, List.filter_append, List.filter_map]
    congr 1

/-- C9: `addTask` returns a record with the given title, date, time and
priority, the id and the creation time the runtime supplied, `endTime` equal
to the argument, or `null` when the argument is absent or empty,
`completed = false` and no `syncedToTickTick` property (which reads as
false); the collection afterwards is the earlier one with that record
appended. -/
theorem addTask_record_appended (newId now title date time : String) (endTime : Option String)
    (priority : String) (tasks : List Task) :
    ∃ task, addTask newId now title date time endTime priority tasks = (task, tasks ++ [task]) ∧
      task.id = newId ∧ task.title = title ∧ task.date = date ∧ task.time = time ∧
      task.priority = priority ∧ task.createdAt = now ∧
      task.endTime = (if endTime = none ∨ endTime = some "" then none else endTime) ∧
      task.completed = false ∧
      task.syncedToTickTick = none ∧ syncedTruthy task.syncedToTickTick = false := by
  refine ⟨_, rfl, rfl, rfl, rfl, rfl, rfl, rfl, ?_, rfl, rfl, rfl⟩
  cases endTime with
  | none => simp [endTimeTruthy]
  | some s =>
    by_cases hs : s = ""
    · simp [endTimeTruthy, strTruthy, hs]
    · simp [endTimeTruthy, strTruthy, hs]

/-- C10, as the code has it: `addTask` does not look at the title; called
with the empty title on the empty collection it appends a record. -/
theorem addTask_empty_title_appends :
    (addTask "m1" "2024-06-15T01:00:00.000Z" "" "2024-06-15" "09:00" none
      "urgent-important" []).2 =
      [{ id := "m1", title := "", date := "2024-06-15", time := "09:00", endTime := none,
         priority := "urgent-important", completed := false,
         createdAt := "2024-06-15T01:00:00.000Z", syncedToTickTick := none }] := by
  rfl

/-- C10, amended: the click handler of the add form, given a title field that
is empty once trimmed, stops at the notice and returns with the collection
unchanged; `addTask` is not called and no record is appended. -/
theorem addTaskClick_blank_title (newId now titleField date time endTime priority : String)
    (tasks : List Task) (h : jsTrim titleField = "") :
    addTaskClick newId now titleField date time endTime priority tasks =
      { alert := some "请输入任务内容", tasks := tasks } := by
  simp [addTaskClick, h, strTruthy]

/-- Witness of C10, amended: a title of two blanks. -/
theorem addTaskClick_blank_title_witness :
    jsTrim "  " = "" ∧
    addTaskClick "m1" "2024-06-15T01:00:00.000Z" "  " "2024-06-15" "09:00" "" "urgent-important"
      [] = { alert := some "请输入任务内容", tasks := [] } :=
  ⟨by decide, addTaskClick_blank_title _ _ _ _ _ _ _ _ (by decide)⟩

/-! ## Deleting a task -/

/-- C11: `deleteTask` leaves exactly the tasks whose id differs from the given
one: the result is the collection with tasks taken out, nothing modified and
the order kept; a task is in it exactly when it is in the collection with
another id, and as often; when no task has the id the collection is
unchanged.  The function always returns. -/
theorem deleteTask_exact (taskId : String) (tasks : List Task) :
    (deleteTask taskId tasks).Sublist tasks ∧
    (∀ t, t ∈ deleteTask taskId tasks ↔ t ∈ tasks ∧ t.id ≠ taskId) ∧
    (∀ t, t.id ≠ taskId → (deleteTask taskId tasks).count t = tasks.count t) ∧
    ((∀ t ∈ tasks, t.id ≠ taskId) → deleteTask taskId tasks = tasks) := by
  refine ⟨List.filter_sublist _, ?_, ?_, ?_⟩
  · intro t
    simp [deleteTask]
  · intro t ht
    unfold deleteTask
    rw [List.count_filter]
    simpa using ht
  · intro hno
    unfold deleteTask
    exact List.filter_eq_self.mpr (fun t ht => by simpa using hno t ht)

/-! ## The order of the task list -/

theorem orderedInsert_perm (comparefn : Task → Task → Int) (a : Task) (l : List Task) :
    (orderedInsert comparefn a l).Perm (a :: l) := by
  induction l with
  | nil => exact List.Perm.refl _
  | cons b l ih =>
    by_cases h : comparefn a b ≤ 0
    · simp [orderedInsert, h]
    · simp only [orderedInsert, h, if_false]
      exact (List.Perm.cons b ih).trans (List.Perm.swap a b l)

theorem arraySort_perm (comparefn : Task → Task → Int) (l : List Task) :
    (arraySort comparefn l).Perm l := by
  induction l with
  | nil => exact List.Perm.refl _
  | cons a l ih =>
    exact (orderedInsert_perm comparefn a _).trans (List.Perm.cons a ih)

theorem orderedInsert_sorted {cmp : String → String → Int} (hc : ConsistentComparator cmp)
    (a : Task) (l : List Task)
    (hl : l.Pairwise (fun x y => cmp x.time y.time ≤ 0)) :
    (orderedInsert (fun x y => cmp x.time y.time) a l).Pairwise
      (fun x y => cmp x.time y.time ≤ 0) := by
  obtain ⟨-, hanti, htrans⟩ := hc
  induction l with
  | nil => simp [orderedInsert]
  | cons b l ih =>
    rw [List.pairwise_cons] at hl
    by_cases h : cmp a.time b.time ≤ 0
    · simp only [orderedInsert, h, if_true]
      refine List.Pairwise.cons ?_ (List.Pairwise.cons hl.1 hl.2)
      intro x hx
      rcases List.mem_cons.mp hx with rfl | hx
      · exact h
      · exact htrans _ _ _ h (hl.1 x hx)
    · simp only [orderedInsert, h, if_false]
      refine List.Pairwise.cons ?_ (ih hl.2)
      intro x hx
      have hx2 : x ∈ a :: l := (orderedInsert_perm _ a l).subset hx
      rcases List.mem_cons.mp hx2 with rfl | hx2
      · have : cmp b.time x.time < 0 := (hanti _ _).mpr (by omega)
        omega
      · exact hl.1 x hx2

theorem arraySort_sorted {cmp : String → String → Int} (hc : ConsistentComparator cmp)
    (l : List Task) :
    (arraySort (fun x y => cmp x.time y.time) l).Pairwise
      (fun x y => cmp x.time y.time ≤ 0) := by
  induction l with
  | nil => exact List.Pairwise.nil
  | cons a l ih => exact orderedInsert_sorted hc a _ ih

theorem orderedInsert_filter (comparefn : Task → Task → Int) (p : Task → Bool)
    (hp : ∀ x y, p x = true → p y = true → comparefn x y ≤ 0) (a : Task) (l : List Task) :
    (orderedInsert comparefn a l).filter p = (a :: l).filter p := by
  induction l with
  | nil => rfl
  | cons b l ih =>
    by_cases h : comparefn a b ≤ 0
    · simp only [orderedInsert, h, if_true]
    · simp only [orderedInsert, h, if_false]
      by_cases hpa : p a = true
      · have hpb : p b = false := by
          cases hb : p b with
          | false => rfl
          | true => exact absurd (hp a b hpa hb) h
        rw [List.filter_cons_of_neg (by simp [hpb]), ih, List.filter_cons_of_pos hpa,
          List.filter_cons_of_pos hpa, List.filter_cons_of_neg (by simp [hpb])]
      · rw [List.filter_cons_of_neg hpa] at ih
        rw [List.filter_cons_of_neg hpa]
        by_cases hpb : p b = true
        · rw [List.filter_cons_of_pos hpb, List.filter_cons_of_pos hpb, ih]
        · rw [List.filter_cons_of_neg hpb, List.filter_cons_of_neg hpb, ih]

theorem arraySort_filter (comparefn : Task → Task → Int) (p : Task → Bool)
    (hp : ∀ x y, p x = true → p y = true → comparefn x y ≤ 0) (l : List Task) :
    (arraySort comparefn l).filter p = l.filter p := by
  induction l with
  | nil => rfl
  | cons a l ih =>
    show (orderedInsert comparefn a (arraySort comparefn l)).filter p = _
    rw [orderedInsert_filter comparefn p hp]
    by_cases hpa : p a = true
    · rw [List.filter_cons_of_pos hpa, List.filter_cons_of_pos hpa, ih]
    · rw [List.filter_cons_of_neg hpa, List.filter_cons_of_neg hpa, ih]

theorem foldl_append_eq_join (f : Task → String) (l : List Task) (init : String) :
    l.foldl (fun html task => html ++ f task) init = init ++ String.join (l.map f) := by
  have hjoin : ∀ (xs : List String) (acc : String),
      xs.foldl (fun r s => r ++ s) acc = acc ++ xs.foldl (fun r s => r ++ s) "" := by
    intro xs
    induction xs with
    | nil => intro acc; simp
    | cons x xs ih =>
      intro acc
      simp only [List.foldl_cons]
      rw [ih (acc ++ x), ih ("" ++ x)]
      simp [String.append_assoc]
  induction l generalizing init with
  | nil => simp [String.join]
  | cons a l ih =>
    simp only [List.foldl_cons, List.map_cons, String.join]
    rw [ih, hjoin (List.map f l) ("" ++ f a)]
    simp [String.join, String.append_assoc]

theorem codeUnitCompare_consistent : ConsistentComparator codeUnitCompare := by
  have irr : ∀ a, jsLt a a = false := by
    intro a
    cases h : jsLt a a with
    | false => rfl
    | true => exact absurd ((unitsLt_iff_lex _ _).mp h) (irrefl_of (List.Lex (· < ·)) _)
  have asym : ∀ a b, jsLt a b = true → jsLt b a = false := by
    intro a b hab
    cases h : jsLt b a with
    | false => rfl
    | true =>
      exact absurd ((unitsLt_iff_lex _ _).mp h)
        (asymm_of (List.Lex (· < ·)) ((unitsLt_iff_lex _ _).mp hab))
  have conn : ∀ a b c, jsLt a c = true → jsLt a b = true ∨ jsLt b c = true := by
    intro a b c hac
    rcases @IsOrderConnected.conn (List Nat) (List.Lex (· < ·)) inferInstance (codeUnits a)
      (codeUnits b) (codeUnits c) ((unitsLt_iff_lex _ _).mp hac) with h | h
    · exact Or.inl ((unitsLt_iff_lex _ _).mpr h)
    · exact Or.inr ((unitsLt_iff_lex _ _).mpr h)
  refine ⟨?_, ?_, ?_⟩
  · intro a
    simp [codeUnitCompare, irr]
  · intro a b
    cases hab : jsLt a b <;> cases hba : jsLt b a <;> simp [codeUnitCompare, hab, hba]
    have := asym a b hab
    simp [hba] at this
  · intro a b c h1 h2
    cases hca : jsLt c a with
    | false =>
      cases hac : jsLt a c <;> simp [codeUnitCompare, hac, hca]
    | true =>
      rcases conn c b a hca with hcb | hba
      · have hbc := asym c b hcb
        simp [codeUnitCompare, hbc, hcb] at h2
      · have hab := asym b a hba
        simp [codeUnitCompare, hab, hba] at h1

theorem isDigit_toNat (c : Char) (h : c.isDigit = true) : 48 ≤ c.toNat ∧ c.toNat ≤ 57 := by
  simp only [Char.isDigit, Bool.and_eq_true, decide_eq_true_eq] at h
  obtain ⟨h1, h2⟩ := h
  have h1n : (48 : UInt32).toNat ≤ c.val.toNat := h1
  have h2n : c.val.toNat ≤ (57 : UInt32).toNat := h2
  exact ⟨h1n, h2n⟩

theorem startMinutes_units (s : String) (m : Nat) (h : startMinutes s = some m) :
    ∃ a b c d : Nat, a * 10 + b ≤ 23 ∧ c * 10 + d ≤ 59 ∧ b ≤ 9 ∧ d ≤ 9 ∧
      m = (a * 10 + b) * 60 + (c * 10 + d) ∧
      codeUnits s = [48 + a, 48 + b, 58, 48 + c, 48 + d] := by
  unfold startMinutes at h
  split at h
  · rename_i h1 h2 c m1 m2 hs
    split_ifs at h with hc
    obtain ⟨hcolon, d1, d2, d3, d4, hh, hm⟩ := hc
    have e1 := isDigit_toNat h1 d1
    have e2 := isDigit_toNat h2 d2
    have e3 := isDigit_toNat m1 d3
    have e4 := isDigit_toNat m2 d4
    refine ⟨h1.toNat - 48, h2.toNat - 48, m1.toNat - 48, m2.toNat - 48, hh, hm, by omega,
      by omega, (Option.some.inj h).symm, ?_⟩
    have hu : ∀ ch : Char, ch.toNat ≤ 58 → utf16 ch = [ch.toNat] := by
      intro ch hch
      simp only [utf16]
      rw [if_pos (by omega)]
    have hcn : c.toNat = 58 := by rw [hcolon]; rfl
    simp only [codeUnits, hs, List.map_cons, List.map_nil, List.flatten_cons, List.flatten_nil,
      hu h1 (by omega), hu h2 (by omega), hu c (by omega), hu m1 (by omega), hu m2 (by omega),
      List.singleton_append, List.append_nil, hcn, List.cons.injEq, and_true]
    exact ⟨by omega, by omega, trivial, by omega, by omega⟩
  · exact absurd h (by simp)

/-- The comparator of code units orders the strings `HH:MM` by the time of
day they denote. -/
theorem codeUnitCompare_clock (a b : String) (ma mb : Nat)
    (ha : startMinutes a = some ma) (hb : startMinutes b = some mb) :
    codeUnitCompare a b < 0 ↔ ma < mb := by
  obtain ⟨a1, a2, a3, a4, -, ham, ha2, ha4, rfl, hua⟩ := startMinutes_units a ma ha
  obtain ⟨b1, b2, b3, b4, -, hbm, hb2, hb4, rfl, hub⟩ := startMinutes_units b mb hb
  have hlt : codeUnitCompare a b < 0 ↔ jsLt a b = true := by
    unfold codeUnitCompare
    split_ifs <;> simp_all
  rw [hlt]
  simp only [jsLt, hua, hub, unitsLt]
  split_ifs <;> simp <;> omega

/-- C12: for a runtime whose `localeCompare` is a consistent comparator, as
ECMAScript requires, and orders the strings `HH:MM` by the time of day, as
every collation does, and for a date with at least one task, `renderTaskList`
lists the items of a rearrangement of `getTasksByDate(date)` that ascends by
start time: of two listed tasks whose `time` fields are times of day, the
earlier one comes first, and the whole list ascends in the order of
`localeCompare`; tasks whose start times tie, those with equal start time
among them, keep their relative order.  For a date with no task it returns
the empty-state text.  The item of a task shows its id, its title, its time
range (`time` alone, or `time - endTime`) and the label of its priority,
which for a priority outside the table is the text of an inherited member or
`undefined`. -/
theorem renderTaskList_order (localeCompare : String → String → Int)
    (memberText : String → String) (hc : ConsistentComparator localeCompare)
    (hclock : ∀ (a b : String) (ma mb : Nat), startMinutes a = some ma →
      startMinutes b = some mb → (localeCompare a b < 0 ↔ ma < mb))
    (dateStr : String) (tasks : List Task) :
    (getTasksByDate dateStr tasks = [] →
      renderTaskList localeCompare memberText dateStr tasks =
        "<div class=\"ps-no-tasks\">暂无任务安排</div>") ∧
    (getTasksByDate dateStr tasks ≠ [] →
      ∃ listed : List Task,
        renderTaskList localeCompare memberText dateStr tasks =
          "<div class=\"ps-task-list\">"
            ++ String.join (listed.map (renderTaskItem memberText)) ++ "</div>" ∧
        listed.Perm (getTasksByDate dateStr tasks) ∧
        listed.Pairwise (fun a b => ∀ ma mb : Nat, startMinutes a.time = some ma →
          startMinutes b.time = some mb → ma ≤ mb) ∧
        listed.Pairwise (fun a b => localeCompare a.time b.time ≤ 0) ∧
        (∀ s : String, listed.filter (fun t => localeCompare t.time s = 0) =
          (getTasksByDate dateStr tasks).filter (fun t => localeCompare t.time s = 0)) ∧
        (∀ s : String, listed.filter (fun t => t.time == s) =
          (getTasksByDate dateStr tasks).filter (fun t => t.time == s))) ∧
    (∀ task : Task, ∃ head checked badge : String,
      renderTaskItem memberText task =
        head ++
          "\" data-id=\"" ++
          task.id ++
          "\">\n        <div class=\"ps-task-checkbox\">\n          <input type=\"checkbox\" " ++
          checked ++
          " />\n        </div>\n        <div class=\"ps-task-content\">\n          <div class=\"ps-task-title\">" ++
          task.title ++
          " " ++
          badge ++
          "</div>\n          <div class=\"ps-task-meta\">\n            <span class=\"ps-task-time\"><i class=\"fa-regular fa-clock\"></i> " ++
          formatTaskTime task ++
          "</span>\n            <span class=\"ps-task-priority-label\">" ++
          labelText memberText task.priority ++
          "</span>\n          </div>\n        </div>\n        <div class=\"ps-task-actions\">\n          <button class=\"ps-btn-edit\" title=\"编辑\"><i class=\"fa-solid fa-pen\"></i></button>\n          <button class=\"ps-btn-delete\" title=\"删除\"><i class=\"fa-solid fa-trash\"></i></button>\n        </div>\n      </div>\n    ") ∧
    (∀ task : Task, (task.endTime = none ∨ task.endTime = some "") →
      formatTaskTime task = task.time) ∧
    (∀ (task : Task) (endTime : String), task.endTime = some endTime → endTime ≠ "" →
      formatTaskTime task = task.time ++ " - " ++ endTime) ∧
    (∀ key : String, labelText memberText key =
      (if key = "urgent-important" then "重要且紧急"
        else if key = "not-urgent-important" then "重要不紧急"
        else if key = "urgent-not-important" then "不重要但紧急"
        else if key = "not-urgent-not-important" then "不重要不紧急"
        else if key ∈ objectPrototypeKeys then memberText key
        else "undefined")) := by
  refine ⟨?_, ?_, ?_, ?_, ?_, ?_⟩
  · intro hE
    simp [renderTaskList, hE]
  · intro hE
    have hlen : ¬ (getTasksByDate dateStr tasks).length = 0 := by
      intro h0
      exact hE (List.length_eq_zero.mp h0)
    have hsorted := arraySort_sorted hc (getTasksByDate dateStr tasks)
    refine ⟨arraySort (fun a b => localeCompare a.time b.time) (getTasksByDate dateStr tasks),
      ?_, arraySort_perm _ _, ?_, hsorted, ?_, ?_⟩
    · simp only [renderTaskList, hlen, if_false]
      rw [foldl_append_eq_join]
    · refine hsorted.imp ?_
      intro a b hab ma mb hma hmb
      by_contra hgt
      have h1 : localeCompare b.time a.time < 0 :=
        (hclock b.time a.time mb ma hmb hma).mpr (by omega)
      have h2 : 0 < localeCompare a.time b.time := (hc.2.1 b.time a.time).mp h1
      omega
    · intro s
      apply arraySort_filter
      intro x y hx hy
      obtain ⟨-, hanti, htrans⟩ := hc
      have hx0 : localeCompare x.time s = 0 := by simpa using hx
      have hy0 : localeCompare y.time s = 0 := by simpa using hy
      have hsy : localeCompare s y.time ≤ 0 := by
        by_contra hgt
        have := (hanti y.time s).mpr (by omega)
        omega
      exact htrans _ _ _ (by omega) hsy
    · intro s
      apply arraySort_filter
      intro x y hx hy
      have hx0 : x.time = s := by simpa using hx
      have hy0 : y.time = s := by simpa using hy
      rw [hx0, hy0, hc.1 s]
  · intro task
    exact ⟨"\n      <div class=\"ps-task-item " ++ task.priority ++
            (if task.completed then " completed" else "") ++
            (if endTimeTruthy task.endTime then " duration" else "") ++
            (if syncedTruthy task.syncedToTickTick then " synced" else ""),
      if task.completed then "checked" else "",
      if syncedTruthy task.syncedToTickTick then
        "<span class=\"ps-synced-badge\" title=\"已同步到 TickTick\"><i class=\"fa-solid fa-cloud-check\"></i></span>"
      else "", rfl⟩
  · intro task hEnd
    rcases hEnd with hEnd | hEnd
    · simp [formatTaskTime, hEnd]
    · simp [formatTaskTime, hEnd, strTruthy]
  · intro task endTime hEnd hne
    simp [formatTaskTime, hEnd, strTruthy, hne]
  · intro key
    unfold labelText PRIORITY_LABELS PRIORITY.URGENT_IMPORTANT PRIORITY.NOT_URGENT_IMPORTANT
      PRIORITY.URGENT_NOT_IMPORTANT PRIORITY.NOT_URGENT_NOT_IMPORTANT
    split_ifs <;> rfl

/-- Witness of C12: three tasks of 2024-06-15 at 10:00, 09:00 and 09:00, with
the comparator of code units; the two tasks of 09:00 come first, in their
original order. -/
theorem renderTaskList_order_witness :
    ConsistentComparator codeUnitCompare ∧
    arraySort (fun a b => codeUnitCompare a.time b.time)
      (getTasksByDate "2024-06-15"
        [{ id := "m1", title := "a", date := "2024-06-15", time := "10:00", endTime := none,
           priority := "urgent-important", completed := false, createdAt := "c1",
           syncedToTickTick := none },
         { id := "m2", title := "b", date := "2024-06-15", time := "09:00", endTime := none,
           priority := "urgent-important", completed := false, createdAt := "c2",
           syncedToTickTick := none },
         { id := "m3", title := "c", date := "2024-06-15", time := "09:00", endTime := none,
           priority := "urgent-important", completed := false, createdAt := "c3",
           syncedToTickTick := none }]) =
      [{ id := "m2", title := "b", date := "2024-06-15", time := "09:00", endTime := none,
         priority := "urgent-important", completed := false, createdAt := "c2",
         syncedToTickTick := none },
       { id := "m3", title := "c", date := "2024-06-15", time := "09:00", endTime := none,
         priority := "urgent-important", completed := false, createdAt := "c3",
         syncedToTickTick := none },
       { id := "m1", title := "a", date := "2024-06-15", time := "10:00", endTime := none,
         priority := "urgent-important", completed := false, createdAt := "c1",
         syncedToTickTick := none }] ∧
    ∃ listed : List Task,
      renderTaskList codeUnitCompare (fun name => name) "2024-06-15"
        [{ id := "m1", title := "a", date := "2024-06-15", time := "10:00", endTime := none,
           priority := "urgent-important", completed := false, createdAt := "c1",
           syncedToTickTick := none },
         { id := "m2", title := "b", date := "2024-06-15", time := "09:00", endTime := none,
           priority := "urgent-important", completed := false, createdAt := "c2",
           syncedToTickTick := none },
         { id := "m3", title := "c", date := "2024-06-15", time := "09:00", endTime := none,
           priority := "urgent-important", completed := false, createdAt := "c3",
           syncedToTickTick := none }] =
        "<div class=\"ps-task-list\">"
          ++ String.join (listed.map (renderTaskItem (fun name => name))) ++ "</div>" ∧
      listed.Pairwise (fun a b => ∀ ma mb : Nat, startMinutes a.time = some ma →
        startMinutes b.time = some mb → ma ≤ mb) := by
  refine ⟨codeUnitCompare_consistent, by decide, ?_⟩
  obtain ⟨listed, h1, -, h3, -, -, -⟩ :=
    (renderTaskList_order codeUnitCompare (fun name => name) codeUnitCompare_consistent
      codeUnitCompare_clock "2024-06-15"
      [{ id := "m1", title := "a", date := "2024-06-15", time := "10:00", endTime := none,
           priority := "urgent-important", completed := false, createdAt := "c1",
           syncedToTickTick := none },
         { id := "m2", title := "b", date := "2024-06-15", time := "09:00", endTime := none,
           priority := "urgent-important", completed := false, createdAt := "c2",
           syncedToTickTick := none },
         { id := "m3", title := "c", date := "2024-06-15", time := "09:00", endTime := none,
           priority := "urgent-important", completed := false, createdAt := "c3",
           syncedToTickTick := none }]).2.1 (by decide)
  exact ⟨listed, h1, h3⟩

/-! ## Uniqueness of ids -/

theorem updateRef_map_id (f : Task → Task) (i : Nat) (tasks : List Task)
    (hf : ∀ t, tasks[i]? = some t → (f t).id = t.id) :
    (updateRef f i tasks).map (fun t => t.id) = tasks.map (fun t => t.id) := by
  induction tasks generalizing i with
  | nil => simp [updateRef]
  | cons a as ih =>
    cases i with
    | zero =>
      simp only [updateRef, List.map_cons, List.cons.injEq, and_true]
      exact hf a (by simp)
    | succ i =>
      simp only [updateRef, List.map_cons, List.cons.injEq, true_and]
      exact ih i (fun t ht => hf t (by simpa using ht))

/-- C13, as the code has it: `Object.assign` copies an `id` that `updates`
supplies; editing the task `"m1"` with `updates = {id: "m2"}` in a collection
whose ids are `"m1"` and `"m2"` leaves two tasks with the id `"m2"`. -/
theorem editTask_can_duplicate_id :
    ([({ id := "m1", title := "a", date := "2024-06-15", time := "09:00", endTime := none,
         priority := "urgent-important", completed := false, createdAt := "c1",
         syncedToTickTick := none } : Task),
      { id := "m2", title := "b", date := "2024-06-15", time := "10:00", endTime := none,
        priority := "urgent-important", completed := false, createdAt := "c2",
        syncedToTickTick := none }].map (fun t => t.id)).Nodup ∧
    (editTask "m1"
      { id := some "m2", title := none, date := none, time := none, endTime := none,
        priority := none, completed := none, createdAt := none, syncedToTickTick := none }
      [{ id := "m1", title := "a", date := "2024-06-15", time := "09:00", endTime := none,
         priority := "urgent-important", completed := false, createdAt := "c1",
         syncedToTickTick := none },
       { id := "m2", title := "b", date := "2024-06-15", time := "10:00", endTime := none,
         priority := "urgent-important", completed := false, createdAt := "c2",
         syncedToTickTick := none }]).2.map (fun t => t.id) = ["m2", "m2"] ∧
    ¬ ((editTask "m1"
      { id := some "m2", title := none, date := none, time := none, endTime := none,
        priority := none, completed := none, createdAt := none, syncedToTickTick := none }
      [{ id := "m1", title := "a", date := "2024-06-15", time := "09:00", endTime := none,
         priority := "urgent-important", completed := false, createdAt := "c1",
         syncedToTickTick := none },
       { id := "m2", title := "b", date := "2024-06-15", time := "10:00", endTime := none,
         priority := "urgent-important", completed := false, createdAt := "c2",
         syncedToTickTick := none }]).2.map (fun t => t.id)).Nodup := by
  refine ⟨by decide, by decide, by decide⟩

/-- C13, amended: when no two tasks share an id, none do after `addTask` with
a fresh id, `deleteTask`, `toggleTaskComplete`, `cleanupExpiredTasks`, and
`editTask` with an `updates` record that supplies no `id` or the id of the
task itself, which is what the edit form passes; the tasks that survive a
deletion or a clean-up are unmodified, and after the other operations every
task has, position by position, the id it had. -/
theorem ids_stay_unique (tasks : List Task) (h : (tasks.map (fun t => t.id)).Nodup) :
    (∀ (newId now title date time : String) (endTime : Option String) (priority : String),
      newId ∉ tasks.map (fun t => t.id) →
      (addTask newId now title date time endTime priority tasks).2.map (fun t => t.id)
        = tasks.map (fun t => t.id) ++ [newId] ∧
      ((addTask newId now title date time endTime priority tasks).2.map
        (fun t => t.id)).Nodup) ∧
    (∀ taskId : String,
      (deleteTask taskId tasks).Sublist tasks ∧
      ((deleteTask taskId tasks).map (fun t => t.id)).Nodup) ∧
    (∀ taskId : String,
      (toggleTaskComplete taskId tasks).map (fun t => t.id) = tasks.map (fun t => t.id) ∧
      ((toggleTaskComplete taskId tasks).map (fun t => t.id)).Nodup) ∧
    (∀ (taskId : String) (updates : TaskUpdates),
      (updates.id = none ∨ updates.id = some taskId) →
      (editTask taskId updates tasks).2.map (fun t => t.id) = tasks.map (fun t => t.id) ∧
      ((editTask taskId updates tasks).2.map (fun t => t.id)).Nodup) ∧
    (∀ (taskId titleField date time endTime priority : String),
      (editSaveClick taskId titleField date time endTime priority tasks).tasks.map
        (fun t => t.id) = tasks.map (fun t => t.id)) ∧
    (∀ now tzNow tzToday tzCutoff : Int,
      (cleanupExpiredTasks now tzNow tzToday tzCutoff tasks).2.Sublist tasks ∧
      ((cleanupExpiredTasks now tzNow tzToday tzCutoff tasks).2.map (fun t => t.id)).Nodup) := by
  have hedit : ∀ (taskId : String) (updates : TaskUpdates),
      (updates.id = none ∨ updates.id = some taskId) →
      (editTask taskId updates tasks).2.map (fun t => t.id) = tasks.map (fun t => t.id) := by
    intro taskId updates hu
    cases hf : findRef (fun t => t.id == taskId) tasks with
    | none => simp [editTask, hf]
    | some i =>
      simp only [editTask, hf]
      apply updateRef_map_id
      intro t ht
      obtain ⟨u, hu1, hu2, -⟩ := findRef_some_spec hf
      have htu : t = u := Option.some.inj (ht.symm.trans hu1)
      have hid : t.id = taskId := by
        rw [htu]
        simpa using hu2
      rcases hu with hu | hu <;> simp [assign, hu, hid]
  refine ⟨?_, ?_, ?_, ?_, ?_, ?_⟩
  · intro newId now title date time endTime priority hfresh
    have hmap : (addTask newId now title date time endTime priority tasks).2.map (fun t => t.id)
        = tasks.map (fun t => t.id) ++ [newId] := by
      simp [addTask]
    refine ⟨hmap, ?_⟩
    rw [hmap]
    exact List.Nodup.append h (List.nodup_singleton _) (by simpa using hfresh)
  · intro taskId
    have hsub : (deleteTask taskId tasks).Sublist tasks := List.filter_sublist _
    exact ⟨hsub, h.sublist (hsub.map _)⟩
  · intro taskId
    have hmap : (toggleTaskComplete taskId tasks).map (fun t => t.id)
        = tasks.map (fun t => t.id) := by
      cases hf : findRef (fun t => t.id == taskId) tasks with
      | none => simp [toggleTaskComplete, hf]
      | some i =>
        simp only [toggleTaskComplete, hf]
        exact updateRef_map_id _ _ _ (fun _ _ => rfl)
    exact ⟨hmap, hmap ▸ h⟩
  · intro taskId updates hu
    exact ⟨hedit taskId updates hu, (hedit taskId updates hu) ▸ h⟩
  · intro taskId titleField date time endTime priority
    unfold editSaveClick
    simp only
    split_ifs
    all_goals first
      | rfl
      | exact hedit taskId _ (Or.inl rfl)
  · intro now tzNow tzToday tzCutoff
    have hsub : (cleanupExpiredTasks now tzNow tzToday tzCutoff tasks).2.Sublist tasks :=
      List.filter_sublist _
    exact ⟨hsub, h.sublist (hsub.map _)⟩

/-- Witness of C13, amended: a collection with the ids `"m1"` and `"m2"`;
after deleting `"m1"` the ids are distinct, and toggling `"m2"` leaves the
ids as they were. -/
theorem ids_stay_unique_witness :
    ((deleteTask "m1"
      [{ id := "m1", title := "a", date := "2024-06-15", time := "09:00", endTime := none,
         priority := "urgent-important", completed := false, createdAt := "c1",
         syncedToTickTick := none },
       { id := "m2", title := "b", date := "2024-06-15", time := "10:00", endTime := none,
         priority := "urgent-important", completed := false, createdAt := "c2",
         syncedToTickTick := none }]).map (fun t => t.id)).Nodup ∧
    (toggleTaskComplete "m2"
      [{ id := "m1", title := "a", date := "2024-06-15", time := "09:00", endTime := none,
         priority := "urgent-important", completed := false, createdAt := "c1",
         syncedToTickTick := none },
       { id := "m2", title := "b", date := "2024-06-15", time := "10:00", endTime := none,
         priority := "urgent-important", completed := false, createdAt := "c2",
         syncedToTickTick := none }]).map (fun t => t.id) = ["m1", "m2"] :=
  have hall := ids_stay_unique
    [{ id := "m1", title := "a", date := "2024-06-15", time := "09:00", endTime := none,
       priority := "urgent-important", completed := false, createdAt := "c1",
       syncedToTickTick := none },
     { id := "m2", title := "b", date := "2024-06-15", time := "10:00", endTime := none,
       priority := "urgent-important", completed := false, createdAt := "c2",
       syncedToTickTick := none }] (by decide)
  ⟨(hall.2.1 "m1").2, (hall.2.2.1 "m2").1⟩

end PrivateSecretary
